import Mathlib

/-!
# Verification of the `skt` shape-key transfer core

Shallow embedding of `src/shapekeytransfer.py` (class `ShapeKeyTransfer`).

Modelling conventions:
* `mathutils.Vector` becomes `Vec3` with exact rational (`ℚ`) components.
* Length comparisons `a.length <= b.length` in the source always compare two
  non-negative lengths, so they are embedded as comparisons of squared norms
  (`normSq`), which is an order-isomorphic and exactly computable encoding.
* The 4x4 `matrix_world` is an affine map (3x3 linear part plus translation);
  `Matrix.inverted()` is the exact affine inverse via the adjugate.
* Mutable attributes of the `ShapeKeyTransfer` object, together with the mesh
  data it reads and writes, form the explicit state record `TState`.  Methods
  become functions `TState → ... → TState` (or `TState → Bool × TState` where
  the Python method returns a value).
* `search_log` is a ghost field: it records the destination vertex index every
  time `select_required_verts` is invoked from `update_vertex` (the
  `do_once_per_vertex` branch).  It influences nothing and exists only so that
  "vertex v was never given its own correspondence search" is statable.
* Python list indexing `xs[i]` on data the host (Blender) guarantees in range
  is embedded with `List.getD`; `key_blocks[0]` on a mesh the orchestrator has
  already checked to have shape keys is `List.headD`.
-/

/-- A 3D vector with exact rational coordinates (models `mathutils.Vector`). -/
@[ext]
structure Vec3 where
  x : ℚ
  y : ℚ
  z : ℚ
deriving DecidableEq, Repr

namespace Vec3

def zero : Vec3 := ⟨0, 0, 0⟩

instance : Inhabited Vec3 := ⟨zero⟩

instance : Add Vec3 := ⟨fun a b => ⟨a.x + b.x, a.y + b.y, a.z + b.z⟩⟩

instance : Sub Vec3 := ⟨fun a b => ⟨a.x - b.x, a.y - b.y, a.z - b.z⟩⟩

@[simp] theorem add_x (a b : Vec3) : (a + b).x = a.x + b.x := rfl

@[simp] theorem add_y (a b : Vec3) : (a + b).y = a.y + b.y := rfl

@[simp] theorem add_z (a b : Vec3) : (a + b).z = a.z + b.z := rfl

@[simp] theorem sub_x (a b : Vec3) : (a - b).x = a.x - b.x := rfl

@[simp] theorem sub_y (a b : Vec3) : (a - b).y = a.y - b.y := rfl

@[simp] theorem sub_z (a b : Vec3) : (a - b).z = a.z - b.z := rfl

@[simp] theorem zero_x : (zero).x = 0 := rfl

@[simp] theorem zero_y : (zero).y = 0 := rfl

@[simp] theorem zero_z : (zero).z = 0 := rfl

/-- Squared Euclidean norm; stands for `Vector.length` in all comparisons
(the source only ever compares two lengths, never uses a raw length value). -/
def normSq (v : Vec3) : ℚ := v.x * v.x + v.y * v.y + v.z * v.z

/-- Scalar division, used for `result_position /= len(...)`. -/
def divNat (v : Vec3) (n : ℕ) : Vec3 := ⟨v.x / n, v.y / n, v.z / n⟩

@[simp] theorem divNat_one (v : Vec3) : v.divNat 1 = v := by
  simp [divNat]

end Vec3

/-- An affine transform: three rows of the linear part and a translation.
Models the 4x4 `matrix_world` / its inverse as applied to 3D points. -/
@[ext]
structure Affine where
  r0 : Vec3
  r1 : Vec3
  r2 : Vec3
  t : Vec3
deriving DecidableEq, Repr

namespace Affine

/-- Apply the affine map to a point (`matrix @ vector` in the source). -/
def apply (a : Affine) (v : Vec3) : Vec3 :=
  ⟨a.r0.x * v.x + a.r0.y * v.y + a.r0.z * v.z + a.t.x,
   a.r1.x * v.x + a.r1.y * v.y + a.r1.z * v.z + a.t.y,
   a.r2.x * v.x + a.r2.y * v.y + a.r2.z * v.z + a.t.z⟩

/-- Determinant of the linear part. -/
def det (a : Affine) : ℚ :=
  a.r0.x * (a.r1.y * a.r2.z - a.r1.z * a.r2.y)
  - a.r0.y * (a.r1.x * a.r2.z - a.r1.z * a.r2.x)
  + a.r0.z * (a.r1.x * a.r2.y - a.r1.y * a.r2.x)

/-- Exact affine inverse (`matrix_world.inverted()`): the linear part is the
adjugate over the determinant, and the translation is `-L⁻¹ t`.  The host
raises on singular matrices; transforms passed to this model are assumed
invertible. -/
def inverted (a : Affine) : Affine :=
  let d := a.det
  let i0 : Vec3 := ⟨(a.r1.y * a.r2.z - a.r1.z * a.r2.y) / d,
                    (a.r0.z * a.r2.y - a.r0.y * a.r2.z) / d,
                    (a.r0.y * a.r1.z - a.r0.z * a.r1.y) / d⟩
  let i1 : Vec3 := ⟨(a.r1.z * a.r2.x - a.r1.x * a.r2.z) / d,
                    (a.r0.x * a.r2.z - a.r0.z * a.r2.x) / d,
                    (a.r0.z * a.r1.x - a.r0.x * a.r1.z) / d⟩
  let i2 : Vec3 := ⟨(a.r1.x * a.r2.y - a.r1.y * a.r2.x) / d,
                    (a.r0.y * a.r2.x - a.r0.x * a.r2.y) / d,
                    (a.r0.x * a.r1.y - a.r0.y * a.r1.x) / d⟩
  { r0 := i0, r1 := i1, r2 := i2,
    t := ⟨-(i0.x * a.t.x + i0.y * a.t.y + i0.z * a.t.z),
          -(i1.x * a.t.x + i1.y * a.t.y + i1.z * a.t.z),
          -(i2.x * a.t.x + i2.y * a.t.y + i2.z * a.t.z)⟩ }

/-- The identity transform. -/
def id : Affine := ⟨⟨1, 0, 0⟩, ⟨0, 1, 0⟩, ⟨0, 0, 1⟩, Vec3.zero⟩

end Affine

/-- One shape key block: a name and one local-space position per vertex
(models `mesh.data.shape_keys.key_blocks[i]`). -/
structure ShapeKey where
  name : String
  data : List Vec3
deriving DecidableEq, Repr

instance : Inhabited ShapeKey := ⟨⟨"", []⟩⟩

/-- A mesh as the transfer sees it: its vertex array, its (possibly absent)
shape-key block list, and its world transform. `key_blocks = none` models a
mesh whose `shape_keys` is `None` (no `key_blocks` attribute). -/
structure Mesh where
  vertices : List Vec3
  key_blocks : Option (List ShapeKey)
  matrix_world : Affine
deriving DecidableEq, Repr

/-- The scene's `listUse` enum: `'include'`, `'exclude'` or `'all'`. -/
inductive ListUse where
  | include_
  | exclude_
  | all_
deriving DecidableEq, Repr

/-- Explicit state of a `ShapeKeyTransfer` object together with the mesh data
it reads and writes.  Field names follow the Python attributes; `dest_mw`
caches `dest_mesh.matrix_world` (read directly in `update_vertex`),
`dest_vertices` caches `dest_mesh.data.vertices` (used for vertex count and
for freshly added shape keys), and `search_log` is the ghost log described in
the header. -/
structure TState where
  increment_radius : ℚ
  number_of_increments : ℕ
  current_vertex_index : ℕ
  total_vertices : ℕ
  specify_end_vertex : Bool
  use_one_vertex : Bool
  default_excluded_keys : List String
  excluded_shape_keys : List String
  dest_key_blocks : List ShapeKey
  dest_vertices : List Vec3
  src_key_blocks : List ShapeKey
  src_mwi : Affine
  dest_mw : Affine
  dest_shape_key_index : ℕ
  src_shape_key_index : ℕ
  do_once_per_vertex : Bool
  current_vertex : Vec3
  src_chosen_vertices : List ℕ
  message : String
  skip_vertices_with_no_pair : Bool
  listUse : ListUse
  search_log : List ℕ
deriving DecidableEq, Repr

/-- Basis-pose data of the source mesh:
`src_mesh.data.shape_keys.key_blocks[0].data`. -/
def srcBasisData (st : TState) : List Vec3 :=
  (st.src_key_blocks.headD default).data

/-- Data of the source shape key currently being transferred:
`src_mesh.data.shape_keys.key_blocks[src_shape_key_index].data`. -/
def srcKeyData (st : TState) : List Vec3 :=
  (st.src_key_blocks.getD st.src_shape_key_index default).data

/-- The `for index, v in enumerate(...)` loop body of `select_vertices`:
collect in-range indices and (in `use_one_vertex` mode) track the closest
in-range vertex so far.  `cLen` carries the squared `closest_length`, `cIdx`
the `closest_vertex_index` (initially `-1`). -/
def select_scan (useOne : Bool) (lco : Vec3) (rSq : ℚ) :
    List Vec3 → ℕ → List ℕ → ℚ → ℤ → List ℕ × ℚ × ℤ
  | [], _, chosen, cLen, cIdx => (chosen, cLen, cIdx)
  | v :: rest, i, chosen, cLen, cIdx =>
    if (v - lco).normSq ≤ rSq then
      if useOne then
        if (v - lco).normSq ≤ cLen then
          select_scan useOne lco rSq rest (i + 1) (chosen ++ [i]) ((v - lco).normSq) (i : ℤ)
        else
          select_scan useOne lco rSq rest (i + 1) (chosen ++ [i]) cLen cIdx
      else
        select_scan useOne lco rSq rest (i + 1) (chosen ++ [i]) cLen cIdx
    else
      select_scan useOne lco rSq rest (i + 1) chosen cLen cIdx

/-- `ShapeKeyTransfer.select_vertices(center, radius)`: select source basis
vertices within the radius (converted into source-local units) around the
local-space image of `center`; in `use_one_vertex` mode reduce the selection
to the tracked closest vertex. -/
def select_vertices (st : TState) (center : Vec3) (radius : ℚ) : List ℕ :=
  let lco := st.src_mwi.apply center
  let r := st.src_mwi.apply (center + ⟨0, 0, radius⟩) - lco
  let scanned := select_scan st.use_one_vertex lco r.normSq
      (st.src_key_blocks.headD default).data 0 [] r.normSq (-1)
  if st.use_one_vertex then
    if scanned.2.2 > -1 then [scanned.2.2.toNat] else []
  else
    scanned.1

/-- Body of `select_required_verts`, recursing on the remaining retry budget
`number_of_increments + 1 - level` instead of on the growing `level` (the
two are in bijection; budget `0` is exactly `level > number_of_increments`). -/
def select_required_go (st : TState) (vert : Vec3) : ℕ → ℚ → List ℕ
  | 0, _ => []
  | budget + 1, rad =>
    let verts := select_vertices st vert rad
    if verts.length = 0 then
      select_required_go st vert budget (rad + st.increment_radius)
    else
      verts

/-- `ShapeKeyTransfer.select_required_verts(vert, rad, level)`: expanding-
radius retry wrapper around `select_vertices`. -/
def select_required_verts (st : TState) (vert : Vec3) (rad : ℚ) (level : ℕ) : List ℕ :=
  select_required_go st vert (st.number_of_increments + 1 - level) rad

/-- `ShapeKeyTransfer.set_vertex_position(v_pos)`: write `v_pos` into the
destination shape key `dest_shape_key_index` at `current_vertex_index`. -/
def set_vertex_position (st : TState) (v_pos : Vec3) : TState :=
  { st with dest_key_blocks :=
      match st.dest_key_blocks.get? st.dest_shape_key_index with
      | some sk =>
          st.dest_key_blocks.set st.dest_shape_key_index
            { sk with data := sk.data.set st.current_vertex_index v_pos }
      | none => st.dest_key_blocks }

/-- The `do_once_per_vertex` branch of `update_vertex`: compute the current
destination vertex's world position, run the correspondence search once, and
cache its result.  Appends to the ghost `search_log`. -/
def compute_correspondence (st : TState) : TState :=
  let cv := st.dest_mw.apply
      ((st.dest_key_blocks.headD default).data.getD st.current_vertex_index default)
  { st with
    current_vertex := cv,
    src_chosen_vertices := select_required_verts st cv 0 0,
    do_once_per_vertex := false,
    search_log := st.search_log ++ [st.current_vertex_index] }

/-- The failure diagnostic built in the unmatched branch of `update_vertex`. -/
def unmatchedMsg (vi ski : ℕ) : String :=
  "Failed to find surrounding vertices | Try increasing increment radius | vertex index "
    ++ toString vi ++ " at shape key index " ++ toString ski

/-- `ShapeKeyTransfer.update_vertex()`: process one (vertex, shape key) pair.
Returns `true` exactly when the transfer must abort (unmatched vertex with
`skip_vertices_with_no_pair` unset). -/
def update_vertex (st0 : TState) : Bool × TState :=
  if st0.total_vertices ≤ st0.current_vertex_index then (false, st0)
  else
    let st := if st0.do_once_per_vertex then compute_correspondence st0 else st0
    if st.src_chosen_vertices.length = 0 then
      let st1 := { st with
        message := unmatchedMsg st.current_vertex_index st.src_shape_key_index,
        current_vertex_index := st.current_vertex_index + 1 }
      if st1.skip_vertices_with_no_pair then (false, st1) else (true, st1)
    else
      let result_position :=
        (st.src_chosen_vertices.foldl
          (fun acc v => acc + (srcBasisData st).getD v default) Vec3.zero).divNat
          st.src_chosen_vertices.length
      let result_position2 :=
        (st.src_chosen_vertices.foldl
          (fun acc v => acc + (srcKeyData st).getD v default) Vec3.zero).divNat
          st.src_chosen_vertices.length
      (false, set_vertex_position st (result_position2 - result_position + st.current_vertex))

/-- The `for index, sk in enumerate(blocks): if sk.name == name: out = index`
pattern of `update_global_shapekey_indices`: index of the last block with the
given name, or the fallback when none matches. -/
def lastIndexNamed : List ShapeKey → String → ℕ → ℕ → ℕ
  | [], _, _, acc => acc
  | sk :: rest, name, i, acc =>
      lastIndexNamed rest name (i + 1) (if sk.name = name then i else acc)

/-- `ShapeKeyTransfer.update_global_shapekey_indices(p_key_name)`. -/
def update_global_shapekey_indices (st : TState) (p_key_name : String) : TState :=
  { st with
    dest_shape_key_index :=
      lastIndexNamed st.dest_key_blocks p_key_name 0 st.dest_shape_key_index,
    src_shape_key_index :=
      lastIndexNamed st.src_key_blocks p_key_name 0 st.src_shape_key_index }

/-- `Object.shape_key_add(name=...)`: append a key block whose data is the
destination mesh's current vertex positions. -/
def shape_key_add (st : TState) (name : String) : TState :=
  { st with dest_key_blocks := st.dest_key_blocks ++ [⟨name, st.dest_vertices⟩] }

/-- One pass of the provisioning loop body in `transfer_shape_keys` for one
source key name: the `insert_sk` check against the (growing) destination key
list, then the `listUse` conditional ladder — a lone `if` for `'include'`
followed by an `if`/`elif` pair for `'exclude'`/`'all'`, faithfully kept as
two sequential statements. -/
def provisionStep (st0 : TState) (lst0 : List String) (name : String) :
    TState × List String :=
  let insert_sk := !(st0.dest_key_blocks.any (fun dk => dk.name == name))
  if insert_sk then
    let step1 :=
      if st0.listUse == ListUse.include_ && st0.excluded_shape_keys.contains name
          && !(st0.default_excluded_keys.contains name) then
        (shape_key_add st0 name, lst0 ++ [name])
      else (st0, lst0)
    if step1.1.listUse == ListUse.exclude_
        && !(step1.1.excluded_shape_keys.contains name)
        && !(step1.1.default_excluded_keys.contains name) then
      (shape_key_add step1.1 name, step1.2 ++ [name])
    else if step1.1.listUse == ListUse.all_
        && !(step1.1.default_excluded_keys.contains name) then
      (shape_key_add step1.1 name, step1.2 ++ [name])
    else step1
  else (st0, lst0)

/-- The `for src_shape_key_iter in src key_blocks` provisioning loop,
accumulating `local_shape_key_list`. -/
def provisionLoop : TState → List String → List ShapeKey → TState × List String
  | st, lst, [] => (st, lst)
  | st, lst, sk :: rest =>
    let out := provisionStep st lst sk.name
    provisionLoop out.1 out.2 rest

/-- The per-vertex inner loop `for key_name in local_shape_key_list`:
`update_global_shapekey_indices` then `update_vertex`, aborting (first
component `true`) as soon as `update_vertex` returns `true`. -/
def runKeys : List String → TState → Bool × TState
  | [], st => (false, st)
  | k :: rest, st =>
    match update_vertex (update_global_shapekey_indices st k) with
    | (true, st2) => (true, st2)
    | (false, st2) => runKeys rest st2

/-- The success message set after the main loop. -/
def successMsg : String := "Transferred Shape Keys successfully!"

/-- The `while current_vertex_index < total_vertices` loop of
`transfer_shape_keys`, with an explicit fuel parameter.  The cursor strictly
increases every iteration, so fuel `total_vertices - current_vertex_index`
always suffices and the fuel-0 clause (which mirrors the loop-exit outcome)
is reached only with the cursor at or past `total_vertices`. -/
def transferLoopF : ℕ → List String → TState → Bool × TState
  | 0, _, st => (true, { st with message := successMsg })
  | fuel + 1, keys, st =>
    if st.current_vertex_index < st.total_vertices then
      match runKeys keys { st with do_once_per_vertex := true } with
      | (true, st2) => (false, st2)
      | (false, st2) =>
          transferLoopF fuel keys
            { st2 with current_vertex_index := st2.current_vertex_index + 1 }
    else (true, { st with message := successMsg })

/-- The main loop with its adequate fuel. -/
def transferLoop (keys : List String) (st : TState) : Bool × TState :=
  transferLoopF (st.total_vertices - st.current_vertex_index) keys st

/-- `ShapeKeyTransfer.transfer_shape_keys(src, dest, copy_only)`.  The
`get_parent` resolution is outside the model (the meshes are passed in
resolved); the `matrix_world.inverted()` assignment, the vertex-count
initialization, the source shape-key check, the lazy destination basis key,
the provisioning loop, the `copy_only` short-circuit and the main vertex loop
follow the source in order. -/
def transfer_shape_keys (st0 : TState) (src dest : Mesh) (copy_only : Bool) :
    Bool × TState :=
  let st := { st0 with
    src_mwi := src.matrix_world.inverted,
    dest_mw := dest.matrix_world,
    dest_vertices := dest.vertices,
    current_vertex_index := 0,
    total_vertices :=
      if st0.specify_end_vertex then st0.total_vertices else dest.vertices.length }
  match src.key_blocks with
  | none => (false, { st with message := "There are no Shape Keys in the source mesh!" })
  | some srcBlocks =>
    let st1 := { st with src_key_blocks := srcBlocks }
    let st2 :=
      match dest.key_blocks with
      | none => shape_key_add { st1 with dest_key_blocks := [] } "Basis"
      | some dBlocks => { st1 with dest_key_blocks := dBlocks }
    let prov := provisionLoop st2 [] srcBlocks
    if copy_only then (true, { prov.1 with message := "Success" })
    else transferLoop prov.2 prov.1

/-! ## Basic vector algebra helpers -/

theorem Vec3.zero_add (v : Vec3) : Vec3.zero + v = v := by
  ext <;> simp

theorem Vec3.add_comm (a b : Vec3) : a + b = b + a := by
  ext <;> simp <;> ring

/-! ## Claim C6: single-element matched set is an exact delta copy -/

/-- C6 — When the cached matched set is exactly `[i]`, the value
`update_vertex` writes for the current destination vertex is exactly
`dest_vertex_world + (source_target_key[i] − source_basis[i])` (the cached
`current_vertex` is that world position). -/
theorem C6_single_match_delta_copy (st : TState) (i : ℕ)
    (hcur : st.current_vertex_index < st.total_vertices)
    (honce : st.do_once_per_vertex = false)
    (hch : st.src_chosen_vertices = [i]) :
    update_vertex st =
      (false, set_vertex_position st
        (st.current_vertex + ((srcKeyData st).getD i default - (srcBasisData st).getD i default))) := by
  have hguard : ¬ st.total_vertices ≤ st.current_vertex_index := by omega
  have hvec : ∀ t b : Vec3,
      (Vec3.zero + t).divNat 1 - (Vec3.zero + b).divNat 1 + st.current_vertex =
        st.current_vertex + (t - b) := by
    intro t b
    ext <;> simp [Vec3.divNat] <;> ring
  simp only [update_vertex, hguard, ite_false, honce, Bool.false_eq_true, hch,
    List.length_cons, List.length_nil, List.foldl, Nat.zero_add]
  norm_num
  congr 1
  ext <;> simp <;> ring

unseal Rat.add Rat.mul Rat.inv Rat.sub in
/-- Concrete instantiation of C6. -/
theorem C6_witness :
    update_vertex
      { increment_radius := 1/20, number_of_increments := 2, current_vertex_index := 0,
        total_vertices := 1, specify_end_vertex := false, use_one_vertex := true,
        default_excluded_keys := ["Basis"], excluded_shape_keys := ["Basis"],
        dest_key_blocks := [⟨"Basis", [Vec3.zero]⟩, ⟨"Smile", [Vec3.zero]⟩],
        dest_vertices := [Vec3.zero],
        src_key_blocks := [⟨"Basis", [⟨1, 0, 0⟩]⟩, ⟨"Smile", [⟨2, 0, 0⟩]⟩],
        src_mwi := Affine.id, dest_mw := Affine.id,
        dest_shape_key_index := 1, src_shape_key_index := 1,
        do_once_per_vertex := false, current_vertex := Vec3.zero,
        src_chosen_vertices := [0], message := "",
        skip_vertices_with_no_pair := false, listUse := ListUse.all_,
        search_log := [] } =
      (false,
        { increment_radius := 1/20, number_of_increments := 2, current_vertex_index := 0,
          total_vertices := 1, specify_end_vertex := false, use_one_vertex := true,
          default_excluded_keys := ["Basis"], excluded_shape_keys := ["Basis"],
          dest_key_blocks := [⟨"Basis", [Vec3.zero]⟩, ⟨"Smile", [⟨1, 0, 0⟩]⟩],
          dest_vertices := [Vec3.zero],
          src_key_blocks := [⟨"Basis", [⟨1, 0, 0⟩]⟩, ⟨"Smile", [⟨2, 0, 0⟩]⟩],
          src_mwi := Affine.id, dest_mw := Affine.id,
          dest_shape_key_index := 1, src_shape_key_index := 1,
          do_once_per_vertex := false, current_vertex := Vec3.zero,
          src_chosen_vertices := [0], message := "",
          skip_vertices_with_no_pair := false, listUse := ListUse.all_,
          search_log := [] }) := by
  rw [C6_single_match_delta_copy _ 0 (by decide) rfl rfl]
  decide

/-! ## Claim C8: two-element matched sets average, order-invariantly -/

/-- Helper: the matched branch of `update_vertex` in explicit form. -/
theorem update_vertex_matched (st : TState)
    (hcur : st.current_vertex_index < st.total_vertices)
    (honce : st.do_once_per_vertex = false)
    (hne : st.src_chosen_vertices ≠ []) :
    update_vertex st =
      (false, set_vertex_position st
        ((st.src_chosen_vertices.foldl
            (fun acc v => acc + (srcKeyData st).getD v default) Vec3.zero).divNat
            st.src_chosen_vertices.length -
         (st.src_chosen_vertices.foldl
            (fun acc v => acc + (srcBasisData st).getD v default) Vec3.zero).divNat
            st.src_chosen_vertices.length +
         st.current_vertex)) := by
  have hguard : ¬ st.total_vertices ≤ st.current_vertex_index := by omega
  have hlen : ¬ st.src_chosen_vertices.length = 0 := by
    simpa [List.length_eq_zero] using hne
  simp only [update_vertex, hguard, ite_false, honce, Bool.false_eq_true, hlen]

/-- C8 — With the cached matched set `[a, b]`, the written value is
`avg_target − avg_basis + dest_vertex_world` where `avg_basis` is
`(basis[a] + basis[b]) / 2` and `avg_target` is `(target[a] + target[b]) / 2`;
and swapping the order of the matched pair changes neither the abort flag nor
the destination shape-key data that is written. -/
theorem C8_two_element_average_order_invariant (st : TState) (a b : ℕ)
    (hcur : st.current_vertex_index < st.total_vertices)
    (honce : st.do_once_per_vertex = false)
    (hch : st.src_chosen_vertices = [a, b]) :
    update_vertex st =
      (false, set_vertex_position st
        (((srcKeyData st).getD a default + (srcKeyData st).getD b default).divNat 2 -
         ((srcBasisData st).getD a default + (srcBasisData st).getD b default).divNat 2 +
         st.current_vertex)) ∧
    (update_vertex { st with src_chosen_vertices := [b, a] }).1 = (update_vertex st).1 ∧
    (update_vertex { st with src_chosen_vertices := [b, a] }).2.dest_key_blocks =
      (update_vertex st).2.dest_key_blocks := by
  have h1 := update_vertex_matched st hcur honce (by rw [hch]; simp)
  have h2 := update_vertex_matched { st with src_chosen_vertices := [b, a] }
    (by simpa using hcur) (by simpa using honce) (by simp)
  have hv1 : ∀ xa xb ya yb : Vec3,
      (Vec3.zero + xa + xb).divNat 2 - (Vec3.zero + ya + yb).divNat 2 + st.current_vertex =
        (xa + xb).divNat 2 - (ya + yb).divNat 2 + st.current_vertex := by
    intro xa xb ya yb
    ext <;> simp [Vec3.divNat] <;> ring
  have hv2 : ∀ xa xb ya yb : Vec3,
      (Vec3.zero + xb + xa).divNat 2 - (Vec3.zero + yb + ya).divNat 2 + st.current_vertex =
        (xa + xb).divNat 2 - (ya + yb).divNat 2 + st.current_vertex := by
    intro xa xb ya yb
    ext <;> simp [Vec3.divNat] <;> ring
  refine ⟨?_, ?_, ?_⟩
  · rw [h1, hch]
    simp only [List.foldl, List.length_cons, List.length_nil]
    rw [hv1]
  · rw [h1, h2]
  · rw [h1, h2]
    simp only [List.foldl, List.length_cons, List.length_nil, hch]
    rw [hv1, hv2]
    simp [set_vertex_position, srcKeyData, srcBasisData]

unseal Rat.add Rat.mul Rat.inv Rat.sub in
/-- Concrete instantiation of C8. -/
theorem C8_witness :
    update_vertex
      { increment_radius := 1, number_of_increments := 2, current_vertex_index := 0,
        total_vertices := 1, specify_end_vertex := false, use_one_vertex := false,
        default_excluded_keys := ["Basis"], excluded_shape_keys := ["Basis"],
        dest_key_blocks := [⟨"Basis", [Vec3.zero]⟩, ⟨"Smile", [Vec3.zero]⟩],
        dest_vertices := [Vec3.zero],
        src_key_blocks := [⟨"Basis", [⟨1, 0, 0⟩, ⟨3, 0, 0⟩]⟩, ⟨"Smile", [⟨2, 0, 0⟩, ⟨6, 0, 0⟩]⟩],
        src_mwi := Affine.id, dest_mw := Affine.id,
        dest_shape_key_index := 1, src_shape_key_index := 1,
        do_once_per_vertex := false, current_vertex := Vec3.zero,
        src_chosen_vertices := [0, 1], message := "",
        skip_vertices_with_no_pair := false, listUse := ListUse.all_,
        search_log := [] } =
      (false, set_vertex_position
        { increment_radius := 1, number_of_increments := 2, current_vertex_index := 0,
          total_vertices := 1, specify_end_vertex := false, use_one_vertex := false,
          default_excluded_keys := ["Basis"], excluded_shape_keys := ["Basis"],
          dest_key_blocks := [⟨"Basis", [Vec3.zero]⟩, ⟨"Smile", [Vec3.zero]⟩],
          dest_vertices := [Vec3.zero],
          src_key_blocks := [⟨"Basis", [⟨1, 0, 0⟩, ⟨3, 0, 0⟩]⟩, ⟨"Smile", [⟨2, 0, 0⟩, ⟨6, 0, 0⟩]⟩],
          src_mwi := Affine.id, dest_mw := Affine.id,
          dest_shape_key_index := 1, src_shape_key_index := 1,
          do_once_per_vertex := false, current_vertex := Vec3.zero,
          src_chosen_vertices := [0, 1], message := "",
          skip_vertices_with_no_pair := false, listUse := ListUse.all_,
          search_log := [] }
        ((⟨2, 0, 0⟩ + ⟨6, 0, 0⟩ : Vec3).divNat 2 - (⟨1, 0, 0⟩ + ⟨3, 0, 0⟩ : Vec3).divNat 2 +
          Vec3.zero)) := by
  exact (C8_two_element_average_order_invariant _ 0 1 (by decide) rfl rfl).1

/-! ## Claim C7: expanding-radius retry with a bounded budget -/

/-- C7 — While the retry level is within `number_of_increments`, an empty
in-range set makes the search recurse with the radius grown by
`increment_radius` and the level advanced by one; once the level exceeds
`number_of_increments` the search returns the empty result. -/
theorem C7_radius_retry_budget :
    (∀ (st : TState) (v : Vec3) (rad : ℚ) (level : ℕ),
        level ≤ st.number_of_increments →
        select_vertices st v rad = [] →
        select_required_verts st v rad level =
          select_required_verts st v (rad + st.increment_radius) (level + 1)) ∧
    (∀ (st : TState) (v : Vec3) (rad : ℚ) (level : ℕ),
        st.number_of_increments < level →
        select_required_verts st v rad level = []) := by
  constructor
  · intro st v rad level h hemp
    have h1 : st.number_of_increments + 1 - level = (st.number_of_increments - level) + 1 := by
      omega
    have h2 : st.number_of_increments + 1 - (level + 1) = st.number_of_increments - level := by
      omega
    rw [select_required_verts, select_required_verts, h1, h2]
    simp [select_required_go, hemp]
  · intro st v rad level h
    have h0 : st.number_of_increments + 1 - level = 0 := by omega
    rw [select_required_verts, h0]
    rfl

/-- Concrete instantiation of C7 (a source mesh with no basis vertices, so
every scan is empty). -/
theorem C7_witness :
    (select_required_verts
        { increment_radius := 1, number_of_increments := 1, current_vertex_index := 0,
          total_vertices := 0, specify_end_vertex := false, use_one_vertex := true,
          default_excluded_keys := [], excluded_shape_keys := [],
          dest_key_blocks := [], dest_vertices := [],
          src_key_blocks := [⟨"Basis", []⟩], src_mwi := Affine.id, dest_mw := Affine.id,
          dest_shape_key_index := 0, src_shape_key_index := 0,
          do_once_per_vertex := false, current_vertex := Vec3.zero,
          src_chosen_vertices := [], message := "",
          skip_vertices_with_no_pair := false, listUse := ListUse.all_,
          search_log := [] } Vec3.zero 0 0 =
      select_required_verts
        { increment_radius := 1, number_of_increments := 1, current_vertex_index := 0,
          total_vertices := 0, specify_end_vertex := false, use_one_vertex := true,
          default_excluded_keys := [], excluded_shape_keys := [],
          dest_key_blocks := [], dest_vertices := [],
          src_key_blocks := [⟨"Basis", []⟩], src_mwi := Affine.id, dest_mw := Affine.id,
          dest_shape_key_index := 0, src_shape_key_index := 0,
          do_once_per_vertex := false, current_vertex := Vec3.zero,
          src_chosen_vertices := [], message := "",
          skip_vertices_with_no_pair := false, listUse := ListUse.all_,
          search_log := [] } Vec3.zero (0 + 1) 1) ∧
    (select_required_verts
        { increment_radius := 1, number_of_increments := 1, current_vertex_index := 0,
          total_vertices := 0, specify_end_vertex := false, use_one_vertex := true,
          default_excluded_keys := [], excluded_shape_keys := [],
          dest_key_blocks := [], dest_vertices := [],
          src_key_blocks := [⟨"Basis", []⟩], src_mwi := Affine.id, dest_mw := Affine.id,
          dest_shape_key_index := 0, src_shape_key_index := 0,
          do_once_per_vertex := false, current_vertex := Vec3.zero,
          src_chosen_vertices := [], message := "",
          skip_vertices_with_no_pair := false, listUse := ListUse.all_,
          search_log := [] } Vec3.zero 0 2 = []) := by
  constructor
  · exact C7_radius_retry_budget.1 _ Vec3.zero 0 0 (by decide) rfl
  · exact C7_radius_retry_budget.2 _ Vec3.zero 0 2 (by decide)

/-! ## Claim C9: the search is deterministic and mutates neither mesh -/

/-- The scan of `select_vertices` reads the state only through `src_mwi`,
`src_key_blocks` and `use_one_vertex`. -/
theorem select_vertices_congr (st st' : TState) (c : Vec3) (r : ℚ)
    (h1 : st.src_mwi = st'.src_mwi) (h2 : st.src_key_blocks = st'.src_key_blocks)
    (h3 : st.use_one_vertex = st'.use_one_vertex) :
    select_vertices st c r = select_vertices st' c r := by
  simp only [select_vertices]
  rw [h1, h2, h3]

/-- The retry wrapper body additionally reads only `increment_radius`. -/
theorem select_required_go_congr (st st' : TState) (v : Vec3)
    (h1 : st.src_mwi = st'.src_mwi) (h2 : st.src_key_blocks = st'.src_key_blocks)
    (h3 : st.use_one_vertex = st'.use_one_vertex)
    (h4 : st.increment_radius = st'.increment_radius) :
    ∀ (budget : ℕ) (rad : ℚ),
      select_required_go st v budget rad = select_required_go st' v budget rad := by
  intro budget
  induction budget with
  | zero => intro rad; rfl
  | succ b ih =>
    intro rad
    simp only [select_required_go, select_vertices_congr st st' v rad h1 h2 h3, h4, ih]

/-- `select_required_verts` additionally reads only `number_of_increments`. -/
theorem select_required_verts_congr (st st' : TState) (v : Vec3) (rad : ℚ) (level : ℕ)
    (h1 : st.src_mwi = st'.src_mwi) (h2 : st.src_key_blocks = st'.src_key_blocks)
    (h3 : st.use_one_vertex = st'.use_one_vertex)
    (h4 : st.increment_radius = st'.increment_radius)
    (h5 : st.number_of_increments = st'.number_of_increments) :
    select_required_verts st v rad level = select_required_verts st' v rad level := by
  rw [select_required_verts, select_required_verts, h5,
    select_required_go_congr st st' v h1 h2 h3 h4]

/-- C9 — The correspondence search is a pure function of the source snapshot
(`src_mwi`, `src_key_blocks`) and the configuration (`use_one_vertex`,
`increment_radius`, `number_of_increments`): two states agreeing on those
fields give identical results for `select_vertices` and
`select_required_verts`; and the search phase of `update_vertex`
(`compute_correspondence`, the only stateful wrapper of the search) leaves
the source key blocks, the destination key blocks and the destination vertex
array unchanged. -/
theorem C9_search_deterministic_no_mutation :
    (∀ (st st' : TState) (c : Vec3) (r : ℚ),
        st.src_mwi = st'.src_mwi → st.src_key_blocks = st'.src_key_blocks →
        st.use_one_vertex = st'.use_one_vertex →
        select_vertices st c r = select_vertices st' c r) ∧
    (∀ (st st' : TState) (v : Vec3) (rad : ℚ) (level : ℕ),
        st.src_mwi = st'.src_mwi → st.src_key_blocks = st'.src_key_blocks →
        st.use_one_vertex = st'.use_one_vertex →
        st.increment_radius = st'.increment_radius →
        st.number_of_increments = st'.number_of_increments →
        select_required_verts st v rad level = select_required_verts st' v rad level) ∧
    (∀ st : TState,
        (compute_correspondence st).src_key_blocks = st.src_key_blocks ∧
        (compute_correspondence st).dest_key_blocks = st.dest_key_blocks ∧
        (compute_correspondence st).dest_vertices = st.dest_vertices) :=
  ⟨fun st st' c r h1 h2 h3 => select_vertices_congr st st' c r h1 h2 h3,
   fun st st' v rad level h1 h2 h3 h4 h5 =>
     select_required_verts_congr st st' v rad level h1 h2 h3 h4 h5,
   fun _ => ⟨rfl, rfl, rfl⟩⟩

/-- Concrete instantiation of C9: two states that differ in the cursor, the
message and the destination data, but share the snapshot and configuration,
produce the same search result. -/
theorem C9_witness :
    select_vertices
      { increment_radius := 1, number_of_increments := 1, current_vertex_index := 0,
        total_vertices := 0, specify_end_vertex := false, use_one_vertex := true,
        default_excluded_keys := [], excluded_shape_keys := [],
        dest_key_blocks := [], dest_vertices := [],
        src_key_blocks := [⟨"Basis", []⟩], src_mwi := Affine.id, dest_mw := Affine.id,
        dest_shape_key_index := 0, src_shape_key_index := 0,
        do_once_per_vertex := false, current_vertex := Vec3.zero,
        src_chosen_vertices := [], message := "",
        skip_vertices_with_no_pair := false, listUse := ListUse.all_,
        search_log := [] } Vec3.zero 1 =
    select_vertices
      { increment_radius := 1, number_of_increments := 1, current_vertex_index := 7,
        total_vertices := 9, specify_end_vertex := false, use_one_vertex := true,
        default_excluded_keys := [], excluded_shape_keys := [],
        dest_key_blocks := [⟨"Basis", [Vec3.zero]⟩], dest_vertices := [Vec3.zero],
        src_key_blocks := [⟨"Basis", []⟩], src_mwi := Affine.id, dest_mw := Affine.id,
        dest_shape_key_index := 0, src_shape_key_index := 0,
        do_once_per_vertex := true, current_vertex := Vec3.zero,
        src_chosen_vertices := [3], message := "other",
        skip_vertices_with_no_pair := true, listUse := ListUse.exclude_,
        search_log := [4] } Vec3.zero 1 :=
  C9_search_deterministic_no_mutation.1 _ _ Vec3.zero 1 rfl rfl rfl

/-! ## Provisioning helpers (claims C2, C3) -/

/-- Number of key blocks carrying a given name. -/
def countName (blocks : List ShapeKey) (n : String) : ℕ :=
  blocks.countP (fun sk => sk.name == n)

theorem countName_append_single (b : List ShapeKey) (n m : String) (d : List Vec3) :
    countName (b ++ [⟨n, d⟩]) m = countName b m + (if n = m then 1 else 0) := by
  by_cases h : n = m <;>
    simp [countName, List.countP_append, List.countP_cons, h]

/-- A provisioning pass over one name either leaves the pair unchanged or
creates the key and appends the name to the worklist — never twice. -/
theorem provisionStep_cases (st : TState) (lst : List String) (name : String) :
    provisionStep st lst name = (st, lst) ∨
    provisionStep st lst name = (shape_key_add st name, lst ++ [name]) := by
  by_cases h0 : (st.dest_key_blocks.any (fun dk => dk.name == name)) = true
  · left
    simp [provisionStep, h0]
  · simp only [Bool.not_eq_true] at h0
    by_cases hex : name ∈ st.excluded_shape_keys <;>
      by_cases hdef : name ∈ st.default_excluded_keys <;>
      cases hlu : st.listUse <;>
      first
        | (left; simp [provisionStep, h0, hex, hdef, hlu, shape_key_add]; done)
        | (right; simp [provisionStep, h0, hex, hdef, hlu, shape_key_add]; done)

/-- A name already present on the destination is skipped outright. -/
theorem provisionStep_eq_of_present (st : TState) (lst : List String) (name : String)
    (h : name ∈ st.dest_key_blocks.map ShapeKey.name) :
    provisionStep st lst name = (st, lst) := by
  have hany : (st.dest_key_blocks.any (fun dk => dk.name == name)) = true := by
    rcases List.mem_map.1 h with ⟨sk, hsk, hn⟩
    exact List.any_eq_true.2 ⟨sk, hsk, by simp [hn]⟩
  simp [provisionStep, hany]

/-- In `'all'` mode an absent, non-default-excluded name is created and
appended to the worklist. -/
theorem provisionStep_all_absent (st : TState) (lst : List String) (name : String)
    (hlu : st.listUse = ListUse.all_)
    (habs : (st.dest_key_blocks.any (fun dk => dk.name == name)) = false)
    (hdef : name ∉ st.default_excluded_keys) :
    provisionStep st lst name = (shape_key_add st name, lst ++ [name]) := by
  simp [provisionStep, habs, hdef, hlu]

theorem countName_zero_any_false (b : List ShapeKey) (name : String)
    (h : countName b name = 0) :
    (b.any (fun dk => dk.name == name)) = false := by
  rw [List.any_eq_false]
  intro sk hsk
  simp only [countName, List.countP_eq_zero] at h
  exact h sk hsk

/-- The provisioning loop never changes how many destination blocks carry a
name that is already present when it starts. -/
theorem provisionLoop_present_count (blocks : List ShapeKey) :
    ∀ (st : TState) (lst : List String) (name : String),
      name ∈ st.dest_key_blocks.map ShapeKey.name →
      countName (provisionLoop st lst blocks).1.dest_key_blocks name =
        countName st.dest_key_blocks name := by
  induction blocks with
  | nil => intro st lst name _; rfl
  | cons sk rest ih =>
    intro st lst name h
    by_cases he : sk.name = name
    · have hstep : provisionStep st lst sk.name = (st, lst) :=
        provisionStep_eq_of_present st lst sk.name (he ▸ h)
      simp only [provisionLoop, hstep]
      exact ih st lst name h
    · rcases provisionStep_cases st lst sk.name with hc | hc
      · simp only [provisionLoop, hc]
        exact ih st lst name h
      · simp only [provisionLoop, hc]
        have h1 : name ∈ (shape_key_add st sk.name).dest_key_blocks.map ShapeKey.name := by
          simp only [shape_key_add, List.map_append, List.mem_append]
          exact Or.inl h
        rw [ih (shape_key_add st sk.name) (lst ++ [sk.name]) name h1]
        simp [shape_key_add, countName_append_single, he]

/-- The provisioning loop never appends an already-present name to the
worklist. -/
theorem provisionLoop_present_worklist (blocks : List ShapeKey) :
    ∀ (st : TState) (lst : List String) (name : String),
      name ∈ st.dest_key_blocks.map ShapeKey.name →
      name ∉ lst →
      name ∉ (provisionLoop st lst blocks).2 := by
  induction blocks with
  | nil => intro st lst name _ h2; exact h2
  | cons sk rest ih =>
    intro st lst name h h2
    by_cases he : sk.name = name
    · have hstep : provisionStep st lst sk.name = (st, lst) :=
        provisionStep_eq_of_present st lst sk.name (he ▸ h)
      simp only [provisionLoop, hstep]
      exact ih st lst name h h2
    · rcases provisionStep_cases st lst sk.name with hc | hc
      · simp only [provisionLoop, hc]
        exact ih st lst name h h2
      · simp only [provisionLoop, hc]
        have h1 : name ∈ (shape_key_add st sk.name).dest_key_blocks.map ShapeKey.name := by
          simp only [shape_key_add, List.map_append, List.mem_append]
          exact Or.inl h
        have h2' : name ∉ lst ++ [sk.name] := by
          simp only [List.mem_append, List.mem_singleton]
          rintro (hl | hr)
          · exact h2 hl
          · exact he hr.symm
        exact ih (shape_key_add st sk.name) (lst ++ [sk.name]) name h1 h2'

/-- In `'all'` mode, a source name that is absent from the destination and not
default-excluded ends up on the destination exactly once. -/
theorem provisionLoop_all_adds (blocks : List ShapeKey) :
    ∀ (st : TState) (lst : List String) (name : String),
      st.listUse = ListUse.all_ →
      name ∈ blocks.map ShapeKey.name →
      name ∉ st.default_excluded_keys →
      countName st.dest_key_blocks name = 0 →
      countName (provisionLoop st lst blocks).1.dest_key_blocks name = 1 := by
  induction blocks with
  | nil =>
    intro st lst name _ h _ _
    simp at h
  | cons sk rest ih =>
    intro st lst name hlu hmem hdef hcnt
    by_cases he : sk.name = name
    · have habs := countName_zero_any_false st.dest_key_blocks name hcnt
      have hstep := provisionStep_all_absent st lst name hlu habs hdef
      simp only [provisionLoop, he, hstep]
      have hpres : name ∈ (shape_key_add st name).dest_key_blocks.map ShapeKey.name := by
        simp [shape_key_add]
      rw [provisionLoop_present_count rest _ _ name hpres]
      simp [shape_key_add, countName_append_single, hcnt]
    · have hmem' : name ∈ rest.map ShapeKey.name := by
        rcases List.mem_map.1 hmem with ⟨b, hb, hbn⟩
        rcases List.mem_cons.1 hb with hb1 | hb2
        · exact absurd (hb1 ▸ hbn) he
        · exact List.mem_map.2 ⟨b, hb2, hbn⟩
      rcases provisionStep_cases st lst sk.name with hc | hc
      · simp only [provisionLoop, hc]
        exact ih st lst name hlu hmem' hdef hcnt
      · simp only [provisionLoop, hc]
        refine ih (shape_key_add st sk.name) (lst ++ [sk.name]) name ?_ hmem' ?_ ?_
        · simpa [shape_key_add] using hlu
        · simpa [shape_key_add] using hdef
        · simp [shape_key_add, countName_append_single, he, hcnt]

/-! ## Claim C2: already-existing shape keys (corrected) -/

/-- Provisioning scenario for the C2 counterexample: the source has keys
`Basis` and `Smile`, the destination already has both, mode is `'all'` and
only `Basis` is default-excluded, so `Smile` passes the inclusion policy. -/
def c2State : TState :=
  { increment_radius := 1, number_of_increments := 20, current_vertex_index := 0,
    total_vertices := 0, specify_end_vertex := false, use_one_vertex := true,
    default_excluded_keys := ["Basis", "basis", "Expressions_IDHumans_max"],
    excluded_shape_keys := ["Basis", "basis", "Expressions_IDHumans_max"],
    dest_key_blocks := [⟨"Basis", []⟩, ⟨"Smile", []⟩], dest_vertices := [],
    src_key_blocks := [⟨"Basis", []⟩, ⟨"Smile", []⟩],
    src_mwi := Affine.id, dest_mw := Affine.id,
    dest_shape_key_index := 0, src_shape_key_index := 0,
    do_once_per_vertex := false, current_vertex := Vec3.zero,
    src_chosen_vertices := [], message := "",
    skip_vertices_with_no_pair := false, listUse := ListUse.all_,
    search_log := [] }

/-- C2 fails on the code: `Smile` already exists on the destination, is not
default-excluded and mode is `'all'` (it passes the inclusion policy), yet
the provisioning loop returns an empty worklist — the name is *not* kept for
blending. -/
theorem C2_counterexample_existing_key_omitted :
    c2State.listUse = ListUse.all_ ∧
    "Smile" ∉ c2State.default_excluded_keys ∧
    "Smile" ∈ c2State.dest_key_blocks.map ShapeKey.name ∧
    "Smile" ∈ c2State.src_key_blocks.map ShapeKey.name ∧
    (provisionLoop c2State [] c2State.src_key_blocks).2 = [] ∧
    "Smile" ∉ (provisionLoop c2State [] c2State.src_key_blocks).2 := by
  refine ⟨rfl, by decide, by decide, by decide, by decide, by decide⟩

/-- C2 (amended) — A source key name already present on the destination is
skipped by provisioning *and omitted from the returned worklist* (regardless
of the inclusion policy), so the blending loop does not refresh its geometry;
its block is not duplicated either. -/
theorem C2_amended_existing_key_skipped_and_omitted (blocks : List ShapeKey)
    (st : TState) (name : String)
    (h : name ∈ st.dest_key_blocks.map ShapeKey.name) :
    name ∉ (provisionLoop st [] blocks).2 ∧
    countName (provisionLoop st [] blocks).1.dest_key_blocks name =
      countName st.dest_key_blocks name :=
  ⟨provisionLoop_present_worklist blocks st [] name h (by simp),
   provisionLoop_present_count blocks st [] name h⟩

/-- Concrete instantiation of the amended C2. -/
theorem C2_amended_witness :
    "Smile" ∉ (provisionLoop c2State [] c2State.src_key_blocks).2 ∧
    countName (provisionLoop c2State [] c2State.src_key_blocks).1.dest_key_blocks "Smile" =
      countName c2State.dest_key_blocks "Smile" :=
  C2_amended_existing_key_skipped_and_omitted c2State.src_key_blocks c2State "Smile"
    (by decide)

/-! ## Claim C3: provisioning in `'all'` mode -/

/-- Provisioning scenario from the spec: source keys `["Basis", "Smile"]`,
destination `["Basis"]`, mode `'all'`, `Basis` default-excluded. -/
def c3State : TState :=
  { increment_radius := 1, number_of_increments := 20, current_vertex_index := 0,
    total_vertices := 0, specify_end_vertex := false, use_one_vertex := true,
    default_excluded_keys := ["Basis", "basis", "Expressions_IDHumans_max"],
    excluded_shape_keys := ["Basis", "basis", "Expressions_IDHumans_max"],
    dest_key_blocks := [⟨"Basis", []⟩], dest_vertices := [],
    src_key_blocks := [⟨"Basis", []⟩, ⟨"Smile", []⟩],
    src_mwi := Affine.id, dest_mw := Affine.id,
    dest_shape_key_index := 0, src_shape_key_index := 0,
    do_once_per_vertex := false, current_vertex := Vec3.zero,
    src_chosen_vertices := [], message := "",
    skip_vertices_with_no_pair := false, listUse := ListUse.all_,
    search_log := [] }

/-- C3 — In `'all'` mode, (1) every source key name absent from the
destination and not default-excluded ends up in the destination's key set
exactly once after provisioning; (2) names already present are not
duplicated; and (3) in the spec's scenario (source `["Basis","Smile"]`,
destination `["Basis"]`, `Basis` default-excluded) the worklist is
`["Smile"]` and the destination ends with keys `["Basis","Smile"]`. -/
theorem C3_provision_all_mode :
    (∀ (blocks : List ShapeKey) (st : TState) (lst : List String) (name : String),
        st.listUse = ListUse.all_ →
        name ∈ blocks.map ShapeKey.name →
        name ∉ st.default_excluded_keys →
        countName st.dest_key_blocks name = 0 →
        countName (provisionLoop st lst blocks).1.dest_key_blocks name = 1) ∧
    (∀ (blocks : List ShapeKey) (st : TState) (lst : List String) (name : String),
        name ∈ st.dest_key_blocks.map ShapeKey.name →
        countName (provisionLoop st lst blocks).1.dest_key_blocks name =
          countName st.dest_key_blocks name) ∧
    ((provisionLoop c3State [] c3State.src_key_blocks).2 = ["Smile"] ∧
      (provisionLoop c3State [] c3State.src_key_blocks).1.dest_key_blocks.map ShapeKey.name =
        ["Basis", "Smile"]) :=
  ⟨fun blocks st lst name hlu hmem hdef hcnt =>
      provisionLoop_all_adds blocks st lst name hlu hmem hdef hcnt,
   fun blocks st lst name h => provisionLoop_present_count blocks st lst name h,
   by decide, by decide⟩

/-- Concrete instantiation of C3's universally quantified parts. -/
theorem C3_witness :
    countName (provisionLoop c3State [] c3State.src_key_blocks).1.dest_key_blocks "Smile" = 1 ∧
    countName (provisionLoop c3State [] c3State.src_key_blocks).1.dest_key_blocks "Basis" =
      countName c3State.dest_key_blocks "Basis" :=
  ⟨C3_provision_all_mode.1 c3State.src_key_blocks c3State [] "Smile" rfl (by decide)
      (by decide) (by decide),
   C3_provision_all_mode.2.1 c3State.src_key_blocks c3State [] "Basis" (by decide)⟩

/-! ## Claim C1: single-nearest tie-breaking (corrected) -/

/-- The local-space center used by `select_vertices` (`lco` in the source). -/
def searchLco (st : TState) (center : Vec3) : Vec3 := st.src_mwi.apply center

/-- The squared local-space search radius of `select_vertices`
(`r.length` squared in the source). -/
def searchRadiusSq (st : TState) (center : Vec3) (radius : ℚ) : ℚ :=
  (st.src_mwi.apply (center + ⟨0, 0, radius⟩) - searchLco st center).normSq

/-- Squared distance of source basis vertex `j` to the local-space center. -/
def distSq (st : TState) (center : Vec3) (j : ℕ) : ℚ :=
  ((srcBasisData st).getD j default - searchLco st center).normSq

/-- Full characterization of the closest-vertex tracker of `select_scan` in
`use_one_vertex` mode: the final `closest_length` is a lower bound on every
in-range distance, it is attained at the final `closest_vertex_index`, and on
exact ties the *last* scanned index wins (`≤` in the source update). -/
theorem select_scan_closest (lco : Vec3) (rSq : ℚ) :
    ∀ (l : List Vec3) (i : ℕ) (chosen : List ℕ) (cLen : ℚ) (cIdx : ℤ),
      cLen ≤ rSq → cIdx < (i : ℤ) →
      ((select_scan true lco rSq l i chosen cLen cIdx).2.1 ≤ cLen ∧
       cIdx ≤ (select_scan true lco rSq l i chosen cLen cIdx).2.2 ∧
       (select_scan true lco rSq l i chosen cLen cIdx).2.2 < (i : ℤ) + l.length ∧
       (∀ k, k < l.length → ((l.getD k default) - lco).normSq ≤ rSq →
         (select_scan true lco rSq l i chosen cLen cIdx).2.1 ≤
           ((l.getD k default) - lco).normSq) ∧
       (((select_scan true lco rSq l i chosen cLen cIdx).2.2 = cIdx ∧
         (select_scan true lco rSq l i chosen cLen cIdx).2.1 = cLen) ∨
        (∃ k, k < l.length ∧
          (select_scan true lco rSq l i chosen cLen cIdx).2.2 = (i : ℤ) + k ∧
          ((l.getD k default) - lco).normSq =
            (select_scan true lco rSq l i chosen cLen cIdx).2.1 ∧
          ((l.getD k default) - lco).normSq ≤ rSq)) ∧
       (∀ k, k < l.length → ((l.getD k default) - lco).normSq ≤ rSq →
         ((l.getD k default) - lco).normSq =
           (select_scan true lco rSq l i chosen cLen cIdx).2.1 →
         (i : ℤ) + k ≤ (select_scan true lco rSq l i chosen cLen cIdx).2.2) ∧
       ((∃ k, k < l.length ∧ ((l.getD k default) - lco).normSq ≤ cLen) →
         0 ≤ (select_scan true lco rSq l i chosen cLen cIdx).2.2)) := by
  intro l
  induction l with
  | nil =>
    intro i chosen cLen cIdx h1 h2
    refine ⟨le_refl _, le_refl _, by simpa using h2, ?_, Or.inl ⟨rfl, rfl⟩, ?_, ?_⟩
    · intro k hk
      simp at hk
    · intro k hk
      simp at hk
    · rintro ⟨k, hk, -⟩
      simp at hk
  | cons v rest ih =>
    intro i chosen cLen cIdx h1 h2
    by_cases hd : (v - lco).normSq ≤ rSq
    · by_cases hdc : (v - lco).normSq ≤ cLen
      · -- in range, closest tracker updates (ties included: `≤`)
        have heq : select_scan true lco rSq (v :: rest) i chosen cLen cIdx =
            select_scan true lco rSq rest (i + 1) (chosen ++ [i]) ((v - lco).normSq) (i : ℤ) := by
          simp [select_scan, hd, hdc]
        rw [heq]
        obtain ⟨A, B1, B2, C, D, E, F⟩ :=
          ih (i + 1) (chosen ++ [i]) ((v - lco).normSq) (i : ℤ) hd (by push_cast; omega)
        refine ⟨le_trans A hdc, by omega, by simp only [List.length_cons]; push_cast at B2 ⊢; omega, ?_, ?_, ?_, ?_⟩
        · intro k hk hkr
          match k with
          | 0 => simpa using A
          | k + 1 =>
            have := C k (by simpa using hk) (by simpa using hkr)
            simpa using this
        · rcases D with ⟨hD1, hD2⟩ | ⟨k, hk, hidx, hdk, hkr⟩
          · right
            refine ⟨0, by simp, by rw [hD1]; push_cast; ring, ?_, by simpa using hd⟩
            simp only [List.getD_cons_zero]
            exact hD2.symm
          · right
            refine ⟨k + 1, by simpa using hk, by rw [hidx]; push_cast; ring, ?_, ?_⟩
            · simpa using hdk
            · simpa using hkr
        · intro k hk hkr hke
          match k with
          | 0 => push_cast; omega
          | k + 1 =>
            have := E k (by simpa using hk) (by simpa using hkr) (by simpa using hke)
            push_cast at this ⊢
            omega
        · intro _
          omega
      · -- in range, strictly farther than the tracked closest
        have heq : select_scan true lco rSq (v :: rest) i chosen cLen cIdx =
            select_scan true lco rSq rest (i + 1) (chosen ++ [i]) cLen cIdx := by
          simp [select_scan, hd, hdc]
        rw [heq]
        obtain ⟨A, B1, B2, C, D, E, F⟩ :=
          ih (i + 1) (chosen ++ [i]) cLen cIdx h1 (by push_cast; omega)
        have hlt : cLen < (v - lco).normSq := lt_of_not_le hdc
        refine ⟨A, B1, by simp only [List.length_cons]; push_cast at B2 ⊢; omega, ?_, ?_, ?_, ?_⟩
        · intro k hk hkr
          match k with
          | 0 =>
            simp only [List.getD_cons_zero]
            exact le_of_lt (lt_of_le_of_lt A hlt)
          | k + 1 =>
            have := C k (by simpa using hk) (by simpa using hkr)
            simpa using this
        · rcases D with hD | ⟨k, hk, hidx, hdk, hkr⟩
          · exact Or.inl hD
          · right
            refine ⟨k + 1, by simpa using hk, by rw [hidx]; push_cast; ring, ?_, ?_⟩
            · simpa using hdk
            · simpa using hkr
        · intro k hk hkr hke
          match k with
          | 0 =>
            exfalso
            simp only [List.getD_cons_zero] at hke
            exact absurd (hke ▸ A) (not_le.2 hlt)
          | k + 1 =>
            have := E k (by simpa using hk) (by simpa using hkr) (by simpa using hke)
            push_cast at this ⊢
            omega
        · rintro ⟨k, hk, hkc⟩
          match k with
          | 0 =>
            exfalso
            simp only [List.getD_cons_zero] at hkc
            exact hdc hkc
          | k + 1 =>
            exact F ⟨k, by simpa using hk, by simpa using hkc⟩
    · -- not in range: nothing changes for this element
      have heq : select_scan true lco rSq (v :: rest) i chosen cLen cIdx =
          select_scan true lco rSq rest (i + 1) chosen cLen cIdx := by
        simp [select_scan, hd]
      rw [heq]
      obtain ⟨A, B1, B2, C, D, E, F⟩ :=
        ih (i + 1) chosen cLen cIdx h1 (by push_cast; omega)
      refine ⟨A, B1, by simp only [List.length_cons]; push_cast at B2 ⊢; omega, ?_, ?_, ?_, ?_⟩
      · intro k hk hkr
        match k with
        | 0 =>
          exfalso
          simp only [List.getD_cons_zero] at hkr
          exact hd hkr
        | k + 1 =>
          have := C k (by simpa using hk) (by simpa using hkr)
          simpa using this
      · rcases D with hD | ⟨k, hk, hidx, hdk, hkr⟩
        · exact Or.inl hD
        · right
          refine ⟨k + 1, by simpa using hk, by rw [hidx]; push_cast; ring, ?_, ?_⟩
          · simpa using hdk
          · simpa using hkr
      · intro k hk hkr hke
        match k with
        | 0 =>
          exfalso
          simp only [List.getD_cons_zero] at hkr
          exact hd hkr
        | k + 1 =>
          have := E k (by simpa using hk) (by simpa using hkr) (by simpa using hke)
          push_cast at this ⊢
          omega
      · rintro ⟨k, hk, hkc⟩
        match k with
        | 0 =>
          exfalso
          simp only [List.getD_cons_zero] at hkc
          exact hd (le_trans hkc h1)
        | k + 1 =>
          exact F ⟨k, by simpa using hk, by simpa using hkc⟩

/-- Search scenario for C1: identity transforms, two source basis vertices at
exactly the same distance 1 from the center, search radius 1. -/
def c1State : TState :=
  { increment_radius := 1, number_of_increments := 20, current_vertex_index := 0,
    total_vertices := 1, specify_end_vertex := false, use_one_vertex := true,
    default_excluded_keys := ["Basis"], excluded_shape_keys := ["Basis"],
    dest_key_blocks := [⟨"Basis", [Vec3.zero]⟩], dest_vertices := [Vec3.zero],
    src_key_blocks := [⟨"Basis", [⟨1, 0, 0⟩, ⟨0, 1, 0⟩]⟩],
    src_mwi := Affine.id, dest_mw := Affine.id,
    dest_shape_key_index := 0, src_shape_key_index := 0,
    do_once_per_vertex := false, current_vertex := Vec3.zero,
    src_chosen_vertices := [], message := "",
    skip_vertices_with_no_pair := false, listUse := ListUse.all_,
    search_log := [] }

unseal Rat.add Rat.mul Rat.inv Rat.sub in
/-- C1 fails on the code: with `use_one_vertex` set and source vertices 0 and
1 in range at exactly the same minimal distance, `select_vertices` returns
`[1]` — the highest tied index, not the lowest (`[0]`): the `<=` in the
closest-vertex update lets every later tied vertex displace the earlier
one. -/
theorem C1_counterexample_tie_returns_highest_index :
    c1State.use_one_vertex = true ∧
    distSq c1State Vec3.zero 0 = distSq c1State Vec3.zero 1 ∧
    distSq c1State Vec3.zero 0 ≤ searchRadiusSq c1State Vec3.zero 1 ∧
    distSq c1State Vec3.zero 1 ≤ searchRadiusSq c1State Vec3.zero 1 ∧
    (srcBasisData c1State).length = 2 ∧
    select_vertices c1State Vec3.zero 1 = [1] ∧
    select_vertices c1State Vec3.zero 1 ≠ [0] := by
  refine ⟨rfl, by decide, by decide, by decide, by decide, by decide, by decide⟩

/-- C1 (amended) — With `use_single_nearest` set and at least one in-range
source vertex, the search returns exactly one index `m`: an in-range vertex
of minimal local-space distance, and on exact ties the *highest* vertex index
among the tied minimal in-range vertices (the last one encountered during the
scan) — not the lowest. -/
theorem C1_amended_single_nearest_tie_highest (st : TState) (center : Vec3) (radius : ℚ)
    (hone : st.use_one_vertex = true)
    (hin : ∃ j, j < (srcBasisData st).length ∧
      distSq st center j ≤ searchRadiusSq st center radius) :
    ∃ m, m < (srcBasisData st).length ∧
      select_vertices st center radius = [m] ∧
      distSq st center m ≤ searchRadiusSq st center radius ∧
      (∀ j, j < (srcBasisData st).length →
        distSq st center j ≤ searchRadiusSq st center radius →
        distSq st center m ≤ distSq st center j) ∧
      (∀ j, j < (srcBasisData st).length →
        distSq st center j ≤ searchRadiusSq st center radius →
        distSq st center j = distSq st center m → j ≤ m) := by
  obtain ⟨A, B1, B2, C, D, E, F⟩ :=
    select_scan_closest (searchLco st center) (searchRadiusSq st center radius)
      (srcBasisData st) 0 [] (searchRadiusSq st center radius) (-1) (le_refl _)
      (by norm_num)
  obtain ⟨j, hj, hjr⟩ := hin
  have h0 : (0 : ℤ) ≤ (select_scan true (searchLco st center)
      (searchRadiusSq st center radius) (srcBasisData st) 0 []
      (searchRadiusSq st center radius) (-1)).2.2 :=
    F ⟨j, hj, hjr⟩
  rcases D with ⟨hD1, -⟩ | ⟨k, hk, hidx, hdk, hkr⟩
  · rw [hD1] at h0
    norm_num at h0
  · refine ⟨k, hk, ?_, hkr, ?_, ?_⟩
    · show select_vertices st center radius = [k]
      simp only [select_vertices, hone, if_true]
      have hscan : select_scan true (st.src_mwi.apply center)
          (st.src_mwi.apply (center + ⟨0, 0, radius⟩) - st.src_mwi.apply center).normSq
          (st.src_key_blocks.headD default).data 0 []
          (st.src_mwi.apply (center + ⟨0, 0, radius⟩) - st.src_mwi.apply center).normSq
          (-1) =
          select_scan true (searchLco st center) (searchRadiusSq st center radius)
            (srcBasisData st) 0 [] (searchRadiusSq st center radius) (-1) := rfl
      rw [hscan, hidx, if_pos (by omega : (-1 : ℤ) < (0 : ℕ) + (k : ℤ))]
      simp
    · intro j' hj' hjr'
      show ((srcBasisData st).getD k default - searchLco st center).normSq ≤
        ((srcBasisData st).getD j' default - searchLco st center).normSq
      rw [hdk]
      exact C j' hj' hjr'
    · intro j' hj' hjr' hje
      have hej := E j' hj' hjr' (Eq.trans hje hdk)
      rw [hidx] at hej
      omega

unseal Rat.add Rat.mul Rat.inv Rat.sub in
/-- Concrete instantiation of the amended C1. -/
theorem C1_amended_witness :
    ∃ m, m < (srcBasisData c1State).length ∧
      select_vertices c1State Vec3.zero 1 = [m] ∧
      distSq c1State Vec3.zero m ≤ searchRadiusSq c1State Vec3.zero 1 ∧
      (∀ j, j < (srcBasisData c1State).length →
        distSq c1State Vec3.zero j ≤ searchRadiusSq c1State Vec3.zero 1 →
        distSq c1State Vec3.zero m ≤ distSq c1State Vec3.zero j) ∧
      (∀ j, j < (srcBasisData c1State).length →
        distSq c1State Vec3.zero j ≤ searchRadiusSq c1State Vec3.zero 1 →
        distSq c1State Vec3.zero j = distSq c1State Vec3.zero m → j ≤ m) :=
  C1_amended_single_nearest_tie_highest c1State Vec3.zero 1 rfl
    ⟨0, by decide, by decide⟩

/-! ## Orchestrator helpers (claims C4, C5, C10) -/

/-- Position of destination vertex `vi` in destination key block `ki`. -/
def destKeyVertex (st : TState) (ki vi : ℕ) : Option Vec3 :=
  (st.dest_key_blocks.get? ki).bind (fun sk => sk.data.get? vi)

/-- The world position `update_vertex` computes for the current destination
vertex in its `do_once_per_vertex` branch. -/
def currentWorldPos (st : TState) : Vec3 :=
  st.dest_mw.apply
    ((st.dest_key_blocks.headD default).data.getD st.current_vertex_index default)

theorem update_global_fields (st : TState) (k : String) :
    (update_global_shapekey_indices st k).current_vertex_index = st.current_vertex_index ∧
    (update_global_shapekey_indices st k).total_vertices = st.total_vertices ∧
    (update_global_shapekey_indices st k).dest_key_blocks = st.dest_key_blocks ∧
    (update_global_shapekey_indices st k).src_key_blocks = st.src_key_blocks ∧
    (update_global_shapekey_indices st k).skip_vertices_with_no_pair =
      st.skip_vertices_with_no_pair ∧
    (update_global_shapekey_indices st k).do_once_per_vertex = st.do_once_per_vertex ∧
    (update_global_shapekey_indices st k).src_chosen_vertices = st.src_chosen_vertices ∧
    (update_global_shapekey_indices st k).search_log = st.search_log :=
  ⟨rfl, rfl, rfl, rfl, rfl, rfl, rfl, rfl⟩

/-- The unmatched branch of `update_vertex` on a state whose cached matched
set is empty: the message is set, the cursor advances by one, and the abort
flag is the negation of `skip_vertices_with_no_pair`.  Nothing else — in
particular no destination data — changes. -/
theorem update_vertex_unmatched (st : TState)
    (hcur : st.current_vertex_index < st.total_vertices)
    (honce : st.do_once_per_vertex = false)
    (hch : st.src_chosen_vertices = []) :
    update_vertex st =
      (if st.skip_vertices_with_no_pair then false else true,
       { st with
         message := unmatchedMsg st.current_vertex_index st.src_shape_key_index,
         current_vertex_index := st.current_vertex_index + 1 }) := by
  have hguard : ¬ st.total_vertices ≤ st.current_vertex_index := by omega
  by_cases hskip : st.skip_vertices_with_no_pair <;>
    simp [update_vertex, hguard, honce, hch, hskip]

/-- The `do_once_per_vertex` branch of `update_vertex` when the searched
correspondence set comes back empty. -/
theorem update_vertex_once_unmatched (st : TState)
    (hcur : st.current_vertex_index < st.total_vertices)
    (honce : st.do_once_per_vertex = true)
    (hemp : select_required_verts st (currentWorldPos st) 0 0 = []) :
    update_vertex st =
      (if st.skip_vertices_with_no_pair then false else true,
       { st with
         current_vertex := currentWorldPos st,
         src_chosen_vertices := [],
         do_once_per_vertex := false,
         search_log := st.search_log ++ [st.current_vertex_index],
         message := unmatchedMsg st.current_vertex_index st.src_shape_key_index,
         current_vertex_index := st.current_vertex_index + 1 }) := by
  have hguard : ¬ st.total_vertices ≤ st.current_vertex_index := by omega
  have hcc : compute_correspondence st =
      { st with
        current_vertex := currentWorldPos st,
        src_chosen_vertices := [],
        do_once_per_vertex := false,
        search_log := st.search_log ++ [st.current_vertex_index] } := by
    rw [compute_correspondence]
    rw [show st.dest_mw.apply
        ((st.dest_key_blocks.headD default).data.getD st.current_vertex_index default) =
        currentWorldPos st from rfl]
    rw [hemp]
  by_cases hskip : st.skip_vertices_with_no_pair <;>
    simp [update_vertex, hguard, honce, hcc, hskip]

/-- Writing through `set_vertex_position` touches no destination slot other
than (`dest_shape_key_index`, `current_vertex_index`). -/
theorem set_vertex_position_frame (st : TState) (p : Vec3) (ki vi : ℕ)
    (h : vi ≠ st.current_vertex_index) :
    destKeyVertex (set_vertex_position st p) ki vi = destKeyVertex st ki vi := by
  unfold destKeyVertex set_vertex_position
  cases hg : st.dest_key_blocks.get? st.dest_shape_key_index with
  | none => rfl
  | some sk =>
    simp only
    by_cases hki : st.dest_shape_key_index = ki
    · subst hki
      rw [List.get?_set_eq, hg]
      simp only [Option.map_eq_map, Option.map_some, Option.some_bind]
      exact List.get?_set_ne _ _ (fun he => h he.symm)
    · rw [List.get?_set_ne _ _ hki]

/-- `update_vertex` never writes a destination slot at a vertex index other
than the current cursor. -/
theorem update_vertex_frame (st : TState) (ki vi : ℕ)
    (h : vi ≠ st.current_vertex_index) :
    destKeyVertex (update_vertex st).2 ki vi = destKeyVertex st ki vi := by
  by_cases hg : st.total_vertices ≤ st.current_vertex_index
  · simp [update_vertex, hg]
  · by_cases ho : st.do_once_per_vertex
    · simp only [update_vertex, hg, ite_false, ho, ite_true]
      by_cases hlen : (compute_correspondence st).src_chosen_vertices.length = 0
      · rw [if_pos hlen]
        by_cases hs : st.skip_vertices_with_no_pair <;>
          simp [destKeyVertex, compute_correspondence, hs]
      · rw [if_neg hlen]
        exact set_vertex_position_frame (compute_correspondence st) _ ki vi h
    · simp only [update_vertex, hg, ite_false, ho, Bool.false_eq_true]
      by_cases hlen : st.src_chosen_vertices.length = 0
      · rw [if_pos hlen]
        by_cases hs : st.skip_vertices_with_no_pair <;> simp [destKeyVertex, hs]
      · rw [if_neg hlen]
        exact set_vertex_position_frame st _ ki vi h

/-- `update_vertex` can only advance the cursor, and it changes neither the
vertex budget nor the skip policy nor the source key blocks. -/
theorem update_vertex_fields (st : TState) :
    st.current_vertex_index ≤ (update_vertex st).2.current_vertex_index ∧
    (update_vertex st).2.total_vertices = st.total_vertices ∧
    (update_vertex st).2.skip_vertices_with_no_pair = st.skip_vertices_with_no_pair := by
  by_cases hg : st.total_vertices ≤ st.current_vertex_index
  · simp [update_vertex, hg]
  · by_cases ho : st.do_once_per_vertex
    · simp only [update_vertex, hg, ite_false, ho, ite_true]
      by_cases hlen : (compute_correspondence st).src_chosen_vertices.length = 0
      · rw [if_pos hlen]
        by_cases hs : st.skip_vertices_with_no_pair <;>
          simp [compute_correspondence, hs]
      · rw [if_neg hlen]
        simp [set_vertex_position, compute_correspondence]
    · simp only [update_vertex, hg, ite_false, ho, Bool.false_eq_true, if_false]
      by_cases hlen : st.src_chosen_vertices.length = 0
      · rw [if_pos hlen]
        by_cases hs : st.skip_vertices_with_no_pair <;> simp [hs]
      · rw [if_neg hlen]
        simp [set_vertex_position]

/-- With the skip policy on, `update_vertex` never signals an abort. -/
theorem update_vertex_no_abort (st : TState)
    (h : st.skip_vertices_with_no_pair = true) :
    (update_vertex st).1 = false := by
  by_cases hg : st.total_vertices ≤ st.current_vertex_index
  · simp [update_vertex, hg]
  · by_cases ho : st.do_once_per_vertex
    · simp only [update_vertex, hg, ite_false, ho, ite_true]
      by_cases hlen : (compute_correspondence st).src_chosen_vertices.length = 0
      · rw [if_pos hlen]
        simp [compute_correspondence, h]
      · rw [if_neg hlen]
    · simp only [update_vertex, hg, ite_false, ho, Bool.false_eq_true, if_false]
      by_cases hlen : st.src_chosen_vertices.length = 0
      · rw [if_pos hlen]
        simp [h]
      · rw [if_neg hlen]

/-- `runKeys` can only advance the cursor; budget and skip policy are kept. -/
theorem runKeys_fields (keys : List String) : ∀ st : TState,
    st.current_vertex_index ≤ (runKeys keys st).2.current_vertex_index ∧
    (runKeys keys st).2.total_vertices = st.total_vertices ∧
    (runKeys keys st).2.skip_vertices_with_no_pair = st.skip_vertices_with_no_pair := by
  induction keys with
  | nil => intro st; exact ⟨le_refl _, rfl, rfl⟩
  | cons k rest ih =>
    intro st
    obtain ⟨m1, m2, m3⟩ := update_vertex_fields (update_global_shapekey_indices st k)
    rcases hu : update_vertex (update_global_shapekey_indices st k) with ⟨b, st2⟩
    rw [hu] at m1 m2 m3
    cases b
    · obtain ⟨r1, r2, r3⟩ := ih st2
      simp only [runKeys, hu]
      refine ⟨le_trans m1 r1, ?_, ?_⟩
      · rw [r2, m2]
        exact rfl
      · rw [r3, m3]
        exact rfl
    · simp only [runKeys, hu]
      exact ⟨m1, m2, m3⟩

/-- With the skip policy on, `runKeys` never aborts. -/
theorem runKeys_no_abort (keys : List String) : ∀ st : TState,
    st.skip_vertices_with_no_pair = true → (runKeys keys st).1 = false := by
  induction keys with
  | nil => intro st _; rfl
  | cons k rest ih =>
    intro st hskip
    have hno : (update_vertex (update_global_shapekey_indices st k)).1 = false :=
      update_vertex_no_abort _ hskip
    obtain ⟨-, -, m3⟩ := update_vertex_fields (update_global_shapekey_indices st k)
    rcases hu : update_vertex (update_global_shapekey_indices st k) with ⟨b, st2⟩
    rw [hu] at hno m3
    cases b
    · simp only [runKeys, hu]
      exact ih st2 (by rw [m3]; exact hskip)
    · exact absurd hno (by simp)

/-- `runKeys` never writes a destination slot below the entry cursor. -/
theorem runKeys_frame (keys : List String) : ∀ (st : TState) (ki vi : ℕ),
    vi < st.current_vertex_index →
    destKeyVertex (runKeys keys st).2 ki vi = destKeyVertex st ki vi := by
  induction keys with
  | nil => intro st ki vi _; rfl
  | cons k rest ih =>
    intro st ki vi hvi
    have hcu : (update_global_shapekey_indices st k).current_vertex_index =
        st.current_vertex_index := rfl
    have hf : destKeyVertex (update_vertex (update_global_shapekey_indices st k)).2 ki vi =
        destKeyVertex st ki vi :=
      update_vertex_frame (update_global_shapekey_indices st k) ki vi (by omega)
    obtain ⟨m1, -, -⟩ := update_vertex_fields (update_global_shapekey_indices st k)
    rcases hu : update_vertex (update_global_shapekey_indices st k) with ⟨b, st2⟩
    rw [hu] at hf m1
    have m1' : (update_global_shapekey_indices st k).current_vertex_index ≤
        st2.current_vertex_index := m1
    cases b
    · simp only [runKeys, hu]
      rw [ih st2 ki vi (by omega), hf]
    · simp only [runKeys, hu]
      exact hf

/-- With an empty cached matched set and the search phase already spent,
`runKeys` writes nothing, searches nothing, and leaves the cached set
empty. -/
theorem runKeys_empty_frame (keys : List String) : ∀ st : TState,
    st.src_chosen_vertices = [] → st.do_once_per_vertex = false →
    (runKeys keys st).2.dest_key_blocks = st.dest_key_blocks ∧
    (runKeys keys st).2.search_log = st.search_log ∧
    (runKeys keys st).2.src_chosen_vertices = [] ∧
    (runKeys keys st).2.do_once_per_vertex = false ∧
    st.current_vertex_index ≤ (runKeys keys st).2.current_vertex_index := by
  induction keys with
  | nil => intro st hch ho; exact ⟨rfl, rfl, hch, ho, le_refl _⟩
  | cons k rest ih =>
    intro st hch ho
    by_cases hg : st.total_vertices ≤ st.current_vertex_index
    · have hu : update_vertex (update_global_shapekey_indices st k) =
          (false, update_global_shapekey_indices st k) := by
        unfold update_vertex
        split
        · rfl
        · next hng => exact absurd hg hng
      simp only [runKeys, hu]
      exact ih (update_global_shapekey_indices st k) hch ho
    · have e1 : (update_global_shapekey_indices st k).current_vertex_index =
          st.current_vertex_index := rfl
      have e2 : (update_global_shapekey_indices st k).total_vertices =
          st.total_vertices := rfl
      have hu := update_vertex_unmatched (update_global_shapekey_indices st k)
        (by omega) ho (by exact hch)
      by_cases hs : (update_global_shapekey_indices st k).skip_vertices_with_no_pair
      · rw [if_pos hs] at hu
        simp only [runKeys, hu]
        obtain ⟨r1, r2, r3, r4, r5⟩ := ih
          { update_global_shapekey_indices st k with
            message := unmatchedMsg (update_global_shapekey_indices st k).current_vertex_index
              (update_global_shapekey_indices st k).src_shape_key_index,
            current_vertex_index :=
              (update_global_shapekey_indices st k).current_vertex_index + 1 }
          (by exact hch) (by exact ho)
        exact ⟨by exact r1, by exact r2, by exact r3, by exact r4,
          le_trans (Nat.le_succ _) r5⟩
      · rw [if_neg hs] at hu
        simp only [runKeys, hu]
        exact ⟨rfl, rfl, hch, ho, Nat.le_succ _⟩

/-- The full unmatched chain: from an empty cached set with the skip policy
on and enough vertex budget, `runKeys` advances the cursor once per key and
changes nothing else that matters. -/
theorem runKeys_unmatched_chain (keys : List String) : ∀ st : TState,
    st.src_chosen_vertices = [] → st.do_once_per_vertex = false →
    st.skip_vertices_with_no_pair = true →
    st.current_vertex_index + keys.length ≤ st.total_vertices →
    ∃ st2, runKeys keys st = (false, st2) ∧
      st2.current_vertex_index = st.current_vertex_index + keys.length ∧
      st2.total_vertices = st.total_vertices ∧
      st2.dest_key_blocks = st.dest_key_blocks ∧
      st2.search_log = st.search_log ∧
      st2.src_chosen_vertices = [] ∧
      st2.do_once_per_vertex = false ∧
      st2.skip_vertices_with_no_pair = true := by
  induction keys with
  | nil =>
    intro st hch ho hs _
    exact ⟨st, rfl, by simp, rfl, rfl, rfl, hch, ho, hs⟩
  | cons k rest ih =>
    intro st hch ho hs hb
    simp only [List.length_cons] at hb
    have e1 : (update_global_shapekey_indices st k).current_vertex_index =
        st.current_vertex_index := rfl
    have e2 : (update_global_shapekey_indices st k).total_vertices =
        st.total_vertices := rfl
    have hu := update_vertex_unmatched (update_global_shapekey_indices st k)
      (by omega) ho (by exact hch)
    rw [if_pos (by exact hs)] at hu
    obtain ⟨st2, r0, r1, r2, r3, r4, r5, r6, r7⟩ := ih
      { update_global_shapekey_indices st k with
        message := unmatchedMsg st.current_vertex_index
          (update_global_shapekey_indices st k).src_shape_key_index,
        current_vertex_index := st.current_vertex_index + 1 }
      (by exact hch) (by exact ho) (by exact hs)
      (by show st.current_vertex_index + 1 + rest.length ≤ st.total_vertices; omega)
    have r1' : st2.current_vertex_index = st.current_vertex_index + 1 + rest.length := r1
    refine ⟨st2, ?_, by simp only [List.length_cons]; omega, by exact r2, by exact r3,
      by exact r4, r5, r6, r7⟩
    simp only [runKeys, hu]
    exact r0

theorem destKeyVertex_congr (st st' : TState)
    (h : st.dest_key_blocks = st'.dest_key_blocks) (ki vi : ℕ) :
    destKeyVertex st ki vi = destKeyVertex st' ki vi := by
  unfold destKeyVertex
  rw [h]

/-- With the skip policy on, the main loop always completes with success. -/
theorem transferLoopF_skip_success : ∀ (fuel : ℕ) (keys : List String) (st : TState),
    st.skip_vertices_with_no_pair = true →
    (transferLoopF fuel keys st).1 = true ∧
    (transferLoopF fuel keys st).2.message = successMsg := by
  intro fuel
  induction fuel with
  | zero => intro keys st _; exact ⟨rfl, rfl⟩
  | succ f ih =>
    intro keys st hs
    by_cases hc : st.current_vertex_index < st.total_vertices
    · have hna : (runKeys keys { st with do_once_per_vertex := true }).1 = false :=
        runKeys_no_abort keys _ (by exact hs)
      obtain ⟨-, -, m3⟩ := runKeys_fields keys { st with do_once_per_vertex := true }
      rcases hr : runKeys keys { st with do_once_per_vertex := true } with ⟨b, st2⟩
      rw [hr] at hna m3
      cases b
      · simp only [transferLoopF, if_pos hc, hr]
        refine ih keys { st2 with current_vertex_index := st2.current_vertex_index + 1 } ?_
        show st2.skip_vertices_with_no_pair = true
        rw [m3]
        exact hs
      · exact absurd hna (by simp)
    · rw [show transferLoopF (f + 1) keys st = (true, { st with message := successMsg }) from
        by simp only [transferLoopF, if_neg hc]]
      exact ⟨rfl, rfl⟩

/-- The main loop never writes a destination slot below the entry cursor. -/
theorem transferLoopF_frame : ∀ (fuel : ℕ) (keys : List String) (st : TState) (ki vi : ℕ),
    vi < st.current_vertex_index →
    destKeyVertex (transferLoopF fuel keys st).2 ki vi = destKeyVertex st ki vi := by
  intro fuel
  induction fuel with
  | zero => intro keys st ki vi _; rfl
  | succ f ih =>
    intro keys st ki vi hvi
    by_cases hc : st.current_vertex_index < st.total_vertices
    · have hf := runKeys_frame keys { st with do_once_per_vertex := true } ki vi (by exact hvi)
      obtain ⟨m1, -, -⟩ := runKeys_fields keys { st with do_once_per_vertex := true }
      rcases hr : runKeys keys { st with do_once_per_vertex := true } with ⟨b, st2⟩
      rw [hr] at hf m1
      have m1' : st.current_vertex_index ≤ st2.current_vertex_index := m1
      have hf' : destKeyVertex st2 ki vi = destKeyVertex st ki vi := hf
      cases b
      · simp only [transferLoopF, if_pos hc, hr]
        rw [ih keys { st2 with current_vertex_index := st2.current_vertex_index + 1 } ki vi
          (by show vi < st2.current_vertex_index + 1; omega)]
        exact hf'
      · simp only [transferLoopF, if_pos hc, hr]
        exact hf'
    · simp only [transferLoopF, if_neg hc]
      rfl

/-! ## Claim C4: abort on unmatched vertex when skipping is off -/

/-- C4 — When the transfer's main loop reaches a destination vertex whose
correspondence search comes back empty (after the full retry budget) and
`skip_vertices_with_no_pair` is off, the loop returns `false` at once: the
message is the diagnostic naming that vertex's index, the cursor has moved
exactly one past the failing vertex (nothing later was processed), no
destination data was written, and only the failing vertex was ever given a
correspondence search. -/
theorem C4_abort_on_unmatched_vertex (k : String) (rest : List String) (st : TState) (v : ℕ)
    (hskip : st.skip_vertices_with_no_pair = false)
    (hcur : st.current_vertex_index = v)
    (hv : v < st.total_vertices)
    (hemp : select_required_verts st (currentWorldPos st) 0 0 = []) :
    ∃ st2, transferLoop (k :: rest) st = (false, st2) ∧
      st2.message = unmatchedMsg v
        (lastIndexNamed st.src_key_blocks k 0 st.src_shape_key_index) ∧
      st2.current_vertex_index = v + 1 ∧
      st2.dest_key_blocks = st.dest_key_blocks ∧
      st2.search_log = st.search_log ++ [v] := by
  subst hcur
  have hemp' : select_required_verts
      (update_global_shapekey_indices { st with do_once_per_vertex := true } k)
      (currentWorldPos
        (update_global_shapekey_indices { st with do_once_per_vertex := true } k)) 0 0 = [] := by
    rw [show currentWorldPos
        (update_global_shapekey_indices { st with do_once_per_vertex := true } k) =
        currentWorldPos st from rfl]
    rw [select_required_verts_congr
        (update_global_shapekey_indices { st with do_once_per_vertex := true } k) st
        (currentWorldPos st) 0 0 rfl rfl rfl rfl rfl]
    exact hemp
  have hu := update_vertex_once_unmatched
    (update_global_shapekey_indices { st with do_once_per_vertex := true } k)
    (by exact hv) rfl hemp'
  rw [if_neg (by show ¬ st.skip_vertices_with_no_pair = true; rw [hskip]; simp)] at hu
  have hfuel : st.total_vertices - st.current_vertex_index =
      (st.total_vertices - st.current_vertex_index - 1) + 1 := by omega
  refine ⟨(update_vertex (update_global_shapekey_indices
      { st with do_once_per_vertex := true } k)).2, ?_, ?_, ?_, ?_, ?_⟩
  · rw [transferLoop, hfuel]
    simp only [transferLoopF, if_pos hv, runKeys, hu]
  · rw [hu]
    exact rfl
  · rw [hu]
    exact rfl
  · rw [hu]
    exact rfl
  · rw [hu]
    exact rfl

/-! ## Claim C5: unmatched vertex with skipping on -/

/-- C5 — With `skip_vertices_with_no_pair` on, an unmatched destination
vertex does not prevent success: the main loop returns `true` with the
success message, and that vertex's stored position in every destination
shape key is exactly what it was when the loop reached it — unchanged, not
zeroed. -/
theorem C5_skip_unmatched_success_unchanged (keys : List String) (st : TState)
    (hskip : st.skip_vertices_with_no_pair = true)
    (hv : st.current_vertex_index < st.total_vertices)
    (hemp : select_required_verts st (currentWorldPos st) 0 0 = []) :
    (transferLoop keys st).1 = true ∧
    (transferLoop keys st).2.message = successMsg ∧
    ∀ ki, destKeyVertex (transferLoop keys st).2 ki st.current_vertex_index =
      destKeyVertex st ki st.current_vertex_index := by
  obtain ⟨hs1, hs2⟩ :=
    transferLoopF_skip_success (st.total_vertices - st.current_vertex_index) keys st hskip
  refine ⟨by rw [transferLoop]; exact hs1, by rw [transferLoop]; exact hs2, ?_⟩
  intro ki
  have hfuel : st.total_vertices - st.current_vertex_index =
      (st.total_vertices - st.current_vertex_index - 1) + 1 := by omega
  rw [transferLoop, hfuel]
  cases keys with
  | nil =>
    have hrk : runKeys [] { st with do_once_per_vertex := true } =
        (false, { st with do_once_per_vertex := true }) := rfl
    simp only [transferLoopF, if_pos hv, hrk]
    rw [transferLoopF_frame _ _ _ ki st.current_vertex_index
      (by show st.current_vertex_index < st.current_vertex_index + 1; omega)]
    exact rfl
  | cons k rest =>
    have hemp' : select_required_verts
        (update_global_shapekey_indices { st with do_once_per_vertex := true } k)
        (currentWorldPos
          (update_global_shapekey_indices { st with do_once_per_vertex := true } k)) 0 0 = [] := by
      rw [show currentWorldPos
          (update_global_shapekey_indices { st with do_once_per_vertex := true } k) =
          currentWorldPos st from rfl]
      rw [select_required_verts_congr
        (update_global_shapekey_indices { st with do_once_per_vertex := true } k) st
        (currentWorldPos st) 0 0 rfl rfl rfl rfl rfl]
      exact hemp
    have hu := update_vertex_once_unmatched
      (update_global_shapekey_indices { st with do_once_per_vertex := true } k)
      (by exact hv) rfl hemp'
    rw [if_pos (by exact hskip)] at hu
    obtain ⟨r1, r2, r3, r4, r5⟩ := runKeys_empty_frame rest
      { update_global_shapekey_indices { st with do_once_per_vertex := true } k with
        current_vertex := currentWorldPos
          (update_global_shapekey_indices { st with do_once_per_vertex := true } k),
        src_chosen_vertices := [],
        do_once_per_vertex := false,
        search_log := (update_global_shapekey_indices
          { st with do_once_per_vertex := true } k).search_log ++
          [(update_global_shapekey_indices
            { st with do_once_per_vertex := true } k).current_vertex_index],
        message := unmatchedMsg
          (update_global_shapekey_indices
            { st with do_once_per_vertex := true } k).current_vertex_index
          (update_global_shapekey_indices
            { st with do_once_per_vertex := true } k).src_shape_key_index,
        current_vertex_index := (update_global_shapekey_indices
          { st with do_once_per_vertex := true } k).current_vertex_index + 1 }
      rfl rfl
    rcases hr : runKeys rest
      { update_global_shapekey_indices { st with do_once_per_vertex := true } k with
        current_vertex := currentWorldPos
          (update_global_shapekey_indices { st with do_once_per_vertex := true } k),
        src_chosen_vertices := [],
        do_once_per_vertex := false,
        search_log := (update_global_shapekey_indices
          { st with do_once_per_vertex := true } k).search_log ++
          [(update_global_shapekey_indices
            { st with do_once_per_vertex := true } k).current_vertex_index],
        message := unmatchedMsg
          (update_global_shapekey_indices
            { st with do_once_per_vertex := true } k).current_vertex_index
          (update_global_shapekey_indices
            { st with do_once_per_vertex := true } k).src_shape_key_index,
        current_vertex_index := (update_global_shapekey_indices
          { st with do_once_per_vertex := true } k).current_vertex_index + 1 }
      with ⟨b, st2⟩
    rw [hr] at r1 r2 r3 r4 r5
    have hrk : runKeys (k :: rest) { st with do_once_per_vertex := true } = (b, st2) := by
      simp only [runKeys, hu]
      exact hr
    have hb : b = false := by
      have := runKeys_no_abort (k :: rest) { st with do_once_per_vertex := true }
        (by exact hskip)
      rw [hrk] at this
      exact this
    subst hb
    simp only [transferLoopF, if_pos hv, hrk]
    have hcur2 : st.current_vertex_index < st2.current_vertex_index + 1 := by
      have r5' : st.current_vertex_index + 1 ≤ st2.current_vertex_index := r5
      omega
    rw [transferLoopF_frame _ _ _ ki st.current_vertex_index hcur2]
    have hd : st2.dest_key_blocks = st.dest_key_blocks := r1
    exact destKeyVertex_congr _ _ (by rw [hd]) ki st.current_vertex_index

/-! ## Claim C10: the unmatched branch double-advances the cursor -/

/-- C10 — With `skip_vertices_with_no_pair` on and a worklist of `n ≥ 1`
shape keys, one unmatched destination vertex `v` (with at least `n` vertices
after it) makes the inner key loop advance the cursor once per key — reaching
`v + n` — and the outer loop adds one more, so the next vertex considered is
`v + n + 1`: the `n` vertices after `v` are skipped for every shape key, no
destination data is written during the whole iteration, and only `v` is ever
given a correspondence search (the ghost log grows by `[v]` alone). -/
theorem C10_unmatched_double_advance (keys : List String) (st : TState) (v n : ℕ)
    (hn : keys.length = n) (h1 : 1 ≤ n)
    (hskip : st.skip_vertices_with_no_pair = true)
    (hcur : st.current_vertex_index = v)
    (hlt : v + n < st.total_vertices)
    (hemp : select_required_verts st (currentWorldPos st) 0 0 = []) :
    ∃ st2, runKeys keys { st with do_once_per_vertex := true } = (false, st2) ∧
      st2.current_vertex_index = v + n ∧
      st2.dest_key_blocks = st.dest_key_blocks ∧
      st2.search_log = st.search_log ++ [v] ∧
      (∀ fuel, transferLoopF (fuel + 1) keys st =
        transferLoopF fuel keys { st2 with current_vertex_index := v + n + 1 }) := by
  subst hcur
  subst hn
  cases keys with
  | nil => simp at h1
  | cons k rest =>
    have hemp' : select_required_verts
        (update_global_shapekey_indices { st with do_once_per_vertex := true } k)
        (currentWorldPos
          (update_global_shapekey_indices { st with do_once_per_vertex := true } k)) 0 0 = [] := by
      rw [show currentWorldPos
          (update_global_shapekey_indices { st with do_once_per_vertex := true } k) =
          currentWorldPos st from rfl]
      rw [select_required_verts_congr
        (update_global_shapekey_indices { st with do_once_per_vertex := true } k) st
        (currentWorldPos st) 0 0 rfl rfl rfl rfl rfl]
      exact hemp
    simp only [List.length_cons] at hlt
    have hu := update_vertex_once_unmatched
      (update_global_shapekey_indices { st with do_once_per_vertex := true } k)
      (by show st.current_vertex_index < st.total_vertices; omega) rfl hemp'
    rw [if_pos (by exact hskip)] at hu
    obtain ⟨st2, r0, r1, r2, r3, r4, r5, r6, r7⟩ := runKeys_unmatched_chain rest
      { update_global_shapekey_indices { st with do_once_per_vertex := true } k with
        current_vertex := currentWorldPos
          (update_global_shapekey_indices { st with do_once_per_vertex := true } k),
        src_chosen_vertices := [],
        do_once_per_vertex := false,
        search_log := (update_global_shapekey_indices
          { st with do_once_per_vertex := true } k).search_log ++
          [(update_global_shapekey_indices
            { st with do_once_per_vertex := true } k).current_vertex_index],
        message := unmatchedMsg
          (update_global_shapekey_indices
            { st with do_once_per_vertex := true } k).current_vertex_index
          (update_global_shapekey_indices
            { st with do_once_per_vertex := true } k).src_shape_key_index,
        current_vertex_index := (update_global_shapekey_indices
          { st with do_once_per_vertex := true } k).current_vertex_index + 1 }
      rfl rfl (by exact hskip)
      (by show st.current_vertex_index + 1 + rest.length ≤ st.total_vertices; omega)
    have hrk : runKeys (k :: rest) { st with do_once_per_vertex := true } = (false, st2) := by
      simp only [runKeys, hu]
      exact r0
    have r1' : st2.current_vertex_index = st.current_vertex_index + 1 + rest.length := r1
    refine ⟨st2, hrk, by simp only [List.length_cons]; omega, by exact r3, by exact r4, ?_⟩
    intro fuel
    simp only [transferLoopF,
      if_pos (show st.current_vertex_index < st.total_vertices by omega), hrk]
    rw [show st2.current_vertex_index + 1 =
      st.current_vertex_index + (k :: rest).length + 1 by
        simp only [List.length_cons]; omega]

unseal Rat.add Rat.mul Rat.inv Rat.sub in
/-- Concrete instantiation of C4: one shape key to transfer, an empty source
mesh so the search fails at destination vertex 0, skipping off. -/
theorem C4_witness :
    ∃ st2, transferLoop ["Smile"]
      { increment_radius := 1, number_of_increments := 1, current_vertex_index := 0,
        total_vertices := 2, specify_end_vertex := false, use_one_vertex := true,
        default_excluded_keys := ["Basis"], excluded_shape_keys := ["Basis"],
        dest_key_blocks := [⟨"Basis", [Vec3.zero, Vec3.zero]⟩, ⟨"Smile", [Vec3.zero, Vec3.zero]⟩],
        dest_vertices := [Vec3.zero, Vec3.zero],
        src_key_blocks := [⟨"Basis", []⟩, ⟨"Smile", []⟩],
        src_mwi := Affine.id, dest_mw := Affine.id,
        dest_shape_key_index := 0, src_shape_key_index := 0,
        do_once_per_vertex := false, current_vertex := Vec3.zero,
        src_chosen_vertices := [], message := "",
        skip_vertices_with_no_pair := false, listUse := ListUse.all_,
        search_log := [] } = (false, st2) ∧
      st2.message = unmatchedMsg 0 1 ∧
      st2.current_vertex_index = 0 + 1 ∧
      st2.dest_key_blocks =
        [⟨"Basis", [Vec3.zero, Vec3.zero]⟩, ⟨"Smile", [Vec3.zero, Vec3.zero]⟩] ∧
      st2.search_log = [] ++ [0] := by
  obtain ⟨st2, a1, a2, a3, a4, a5⟩ := C4_abort_on_unmatched_vertex "Smile" []
    { increment_radius := 1, number_of_increments := 1, current_vertex_index := 0,
      total_vertices := 2, specify_end_vertex := false, use_one_vertex := true,
      default_excluded_keys := ["Basis"], excluded_shape_keys := ["Basis"],
      dest_key_blocks := [⟨"Basis", [Vec3.zero, Vec3.zero]⟩, ⟨"Smile", [Vec3.zero, Vec3.zero]⟩],
      dest_vertices := [Vec3.zero, Vec3.zero],
      src_key_blocks := [⟨"Basis", []⟩, ⟨"Smile", []⟩],
      src_mwi := Affine.id, dest_mw := Affine.id,
      dest_shape_key_index := 0, src_shape_key_index := 0,
      do_once_per_vertex := false, current_vertex := Vec3.zero,
      src_chosen_vertices := [], message := "",
      skip_vertices_with_no_pair := false, listUse := ListUse.all_,
      search_log := [] } 0 rfl rfl (by decide) (by decide)
  exact ⟨st2, a1, by rw [a2]; rfl, a3, a4, a5⟩

unseal Rat.add Rat.mul Rat.inv Rat.sub in
/-- Concrete instantiation of C5: same scenario with skipping on. -/
theorem C5_witness :
    (transferLoop ["Smile"]
      { increment_radius := 1, number_of_increments := 1, current_vertex_index := 0,
        total_vertices := 2, specify_end_vertex := false, use_one_vertex := true,
        default_excluded_keys := ["Basis"], excluded_shape_keys := ["Basis"],
        dest_key_blocks := [⟨"Basis", [Vec3.zero, Vec3.zero]⟩, ⟨"Smile", [Vec3.zero, Vec3.zero]⟩],
        dest_vertices := [Vec3.zero, Vec3.zero],
        src_key_blocks := [⟨"Basis", []⟩, ⟨"Smile", []⟩],
        src_mwi := Affine.id, dest_mw := Affine.id,
        dest_shape_key_index := 0, src_shape_key_index := 0,
        do_once_per_vertex := false, current_vertex := Vec3.zero,
        src_chosen_vertices := [], message := "",
        skip_vertices_with_no_pair := true, listUse := ListUse.all_,
        search_log := [] }).1 = true ∧
    (transferLoop ["Smile"]
      { increment_radius := 1, number_of_increments := 1, current_vertex_index := 0,
        total_vertices := 2, specify_end_vertex := false, use_one_vertex := true,
        default_excluded_keys := ["Basis"], excluded_shape_keys := ["Basis"],
        dest_key_blocks := [⟨"Basis", [Vec3.zero, Vec3.zero]⟩, ⟨"Smile", [Vec3.zero, Vec3.zero]⟩],
        dest_vertices := [Vec3.zero, Vec3.zero],
        src_key_blocks := [⟨"Basis", []⟩, ⟨"Smile", []⟩],
        src_mwi := Affine.id, dest_mw := Affine.id,
        dest_shape_key_index := 0, src_shape_key_index := 0,
        do_once_per_vertex := false, current_vertex := Vec3.zero,
        src_chosen_vertices := [], message := "",
        skip_vertices_with_no_pair := true, listUse := ListUse.all_,
        search_log := [] }).2.message = successMsg := by
  obtain ⟨a1, a2, -⟩ := C5_skip_unmatched_success_unchanged ["Smile"]
    { increment_radius := 1, number_of_increments := 1, current_vertex_index := 0,
      total_vertices := 2, specify_end_vertex := false, use_one_vertex := true,
      default_excluded_keys := ["Basis"], excluded_shape_keys := ["Basis"],
      dest_key_blocks := [⟨"Basis", [Vec3.zero, Vec3.zero]⟩, ⟨"Smile", [Vec3.zero, Vec3.zero]⟩],
      dest_vertices := [Vec3.zero, Vec3.zero],
      src_key_blocks := [⟨"Basis", []⟩, ⟨"Smile", []⟩],
      src_mwi := Affine.id, dest_mw := Affine.id,
      dest_shape_key_index := 0, src_shape_key_index := 0,
      do_once_per_vertex := false, current_vertex := Vec3.zero,
      src_chosen_vertices := [], message := "",
      skip_vertices_with_no_pair := true, listUse := ListUse.all_,
      search_log := [] } rfl (by decide) (by decide)
  exact ⟨a1, a2⟩

unseal Rat.add Rat.mul Rat.inv Rat.sub in
/-- Concrete instantiation of C10: one key, unmatched vertex 0, three
destination vertices. -/
theorem C10_witness :
    ∃ st2, runKeys ["Smile"]
      { increment_radius := 1, number_of_increments := 1, current_vertex_index := 0,
        total_vertices := 3, specify_end_vertex := false, use_one_vertex := true,
        default_excluded_keys := ["Basis"], excluded_shape_keys := ["Basis"],
        dest_key_blocks :=
          [⟨"Basis", [Vec3.zero, Vec3.zero, Vec3.zero]⟩,
           ⟨"Smile", [Vec3.zero, Vec3.zero, Vec3.zero]⟩],
        dest_vertices := [Vec3.zero, Vec3.zero, Vec3.zero],
        src_key_blocks := [⟨"Basis", []⟩, ⟨"Smile", []⟩],
        src_mwi := Affine.id, dest_mw := Affine.id,
        dest_shape_key_index := 0, src_shape_key_index := 0,
        do_once_per_vertex := true, current_vertex := Vec3.zero,
        src_chosen_vertices := [], message := "",
        skip_vertices_with_no_pair := true, listUse := ListUse.all_,
        search_log := [] } = (false, st2) ∧
      st2.current_vertex_index = 0 + 1 ∧
      st2.dest_key_blocks =
        [⟨"Basis", [Vec3.zero, Vec3.zero, Vec3.zero]⟩,
         ⟨"Smile", [Vec3.zero, Vec3.zero, Vec3.zero]⟩] ∧
      st2.search_log = [] ++ [0] := by
  obtain ⟨st2, a1, a2, a3, a4, -⟩ := C10_unmatched_double_advance ["Smile"]
    { increment_radius := 1, number_of_increments := 1, current_vertex_index := 0,
      total_vertices := 3, specify_end_vertex := false, use_one_vertex := true,
      default_excluded_keys := ["Basis"], excluded_shape_keys := ["Basis"],
      dest_key_blocks :=
        [⟨"Basis", [Vec3.zero, Vec3.zero, Vec3.zero]⟩,
         ⟨"Smile", [Vec3.zero, Vec3.zero, Vec3.zero]⟩],
      dest_vertices := [Vec3.zero, Vec3.zero, Vec3.zero],
      src_key_blocks := [⟨"Basis", []⟩, ⟨"Smile", []⟩],
      src_mwi := Affine.id, dest_mw := Affine.id,
      dest_shape_key_index := 0, src_shape_key_index := 0,
      do_once_per_vertex := true, current_vertex := Vec3.zero,
      src_chosen_vertices := [], message := "",
      skip_vertices_with_no_pair := true, listUse := ListUse.all_,
      search_log := [] } 0 1 rfl (by decide) rfl rfl (by decide) (by decide)
  exact ⟨st2, a1, a2, a3, a4⟩
